import Mathlib

/-!
A shallow embedding of the Brain Hub (the coordination hub of this repository):
the client registry and broadcast engine, the TTL key-value store with its
alarm, the benchmark coordinator, the map-reduce coordinator, and the command
router, together with theorems about their behaviour.

Conventions used throughout the embedding:
* All millisecond timestamps are modelled as integers (the JavaScript values
  are finite doubles produced by Date.now and arithmetic on it).
* JavaScript `undefined` is modelled as `Option.none`; JSON `null` is the
  explicit value `JsonValue.null`.  Object fields whose value is `undefined`
  are omitted, matching their disappearance on JSON serialization.
* JavaScript truthiness tests on numbers, strings and optional values are
  modelled by explicit helper predicates (`truthyTime`, `jsFalsyStr`, ...),
  so that the falsiness of 0 and of the empty string is preserved.
* Asynchronous completion (a coordinator resolving its summary promise) is
  modelled by explicit resolution functions on the coordinator state.
-/

/-- Truthiness of an optional millisecond timestamp (JavaScript number or
null/undefined): null, undefined and 0 are falsy. -/
def truthyTime : Option Int → Bool
  | none => false
  | some t => t ≠ 0

/-- Falsiness of an optional string (JavaScript string or undefined):
undefined and the empty string are falsy. -/
def jsFalsyStr : Option String → Bool
  | none => true
  | some s => s = ""

/-- Truthiness of an optional error string: the negation of JavaScript
falsiness (undefined and the empty string are falsy). -/
def errTruthy (o : Option String) : Bool := !(jsFalsyStr o)

/-- ASCII whitespace as matched by the regular expression \s and by trim
(the command strings the hub receives only use these). -/
def isWsChar (c : Char) : Bool :=
  c = ' ' ∨ c = '\t' ∨ c = '\n' ∨ c = '\r'

/-- Drop leading and trailing whitespace from a character list (String.trim). -/
def trimChars (cs : List Char) : List Char :=
  ((cs.dropWhile isWsChar).reverse.dropWhile isWsChar).reverse

/-- String.trim of the source, on our character-list representation. -/
def trimString (s : String) : String :=
  String.mk (trimChars s.data)

/-- Split a character list at every whitespace character.  On a trimmed
input, dropping the empty pieces afterwards is exactly the split on runs of
whitespace performed by split(/\s+/). -/
def splitAtWs : List Char → List Char → List String
  | [], acc => [String.mk acc.reverse]
  | c :: rest, acc =>
      if isWsChar c then String.mk acc.reverse :: splitAtWs rest []
      else splitAtWs rest (c :: acc)

/-- Tokenization performed by runCommand: command.trim().split(/\s+/).
On a whitespace-only command this yields the singleton list with the empty
string, as in JavaScript. -/
def tokenizeCommand (s : String) : List String :=
  let t := trimChars s.data
  if t.isEmpty then [""]
  else (splitAtWs t []).filter (fun tok => tok ≠ "")

/-- ASCII lower-casing of a string (String.toLowerCase on the hub's ASCII
command verbs). -/
def lowerString (s : String) : String :=
  String.mk (s.data.map Char.toLower)

/-- A word character as matched by \w in the benchmark option regex. -/
def isWordChar (c : Char) : Bool :=
  c.isAlpha ∨ c.isDigit ∨ c = '_'

/-- A decimal digit list to a natural number (most significant first). -/
def digitsToNat (ds : List Char) : Nat :=
  ds.foldl (fun acc c => acc * 10 + (c.toNat - '0'.toNat)) 0

/-- JavaScript parseInt / Number.parseInt with radix 10 behaviour on the
hub's inputs: skip leading whitespace, optional sign, then a maximal run of
decimal digits; no digits yields NaN, modelled as none.  (The 0x hex form
never appears in the hub's numeric arguments and is not modelled.) -/
def parseIntJs (s : String) : Option Int :=
  let cs := s.data.dropWhile isWsChar
  let (neg, cs) : Bool × List Char :=
    match cs with
    | '-' :: rest => (true, rest)
    | '+' :: rest => (false, rest)
    | _ => (false, cs)
  let digits := cs.takeWhile Char.isDigit
  if digits.isEmpty then none
  else
    let n : Int := Int.ofNat (digitsToNat digits)
    some (if neg then -n else n)

/-- JavaScript Number.parseFloat on the hub's inputs: optional sign, a run
of digits, an optional fractional part; no leading digits and no leading
fraction yields NaN, modelled as none.  (Exponent forms never appear in the
hub's duration arguments and are not modelled.) -/
def parseFloatJs (s : String) : Option ℚ :=
  let cs := s.data.dropWhile isWsChar
  let (neg, cs) : Bool × List Char :=
    match cs with
    | '-' :: rest => (true, rest)
    | '+' :: rest => (false, rest)
    | _ => (false, cs)
  let intDigits := cs.takeWhile Char.isDigit
  let rest := cs.drop intDigits.length
  let fracDigits : List Char :=
    match rest with
    | '.' :: rest2 => rest2.takeWhile Char.isDigit
    | _ => []
  if intDigits.isEmpty ∧ fracDigits.isEmpty then none
  else
    let q : ℚ := (digitsToNat intDigits : ℚ) +
      (digitsToNat fracDigits : ℚ) / ((10 : ℚ) ^ fracDigits.length)
    some (if neg then -q else q)

/-- Math.ceil of an integer division by a positive divisor (used for the
remaining-seconds computation of the ttl command). -/
def ceilDiv (a b : Int) : Int := -((-a) / b)

/-- JSON values, the value domain of every payload the hub routes.  Numbers
are modelled exactly as rationals; `time t` stands for the ISO-8601 rendering
of the millisecond timestamp `t` (the hub never inspects these strings). -/
inductive JsonValue where
  | null : JsonValue
  | bool (b : Bool) : JsonValue
  | num (q : ℚ) : JsonValue
  | str (s : String) : JsonValue
  | arr (items : List JsonValue) : JsonValue
  | obj (fields : List (String × JsonValue)) : JsonValue
  | time (ms : Int) : JsonValue

/-- Whether a JSON value is the literal null. -/
def JsonValue.isNull : JsonValue → Bool
  | .null => true
  | _ => false

/-- JavaScript falsiness of a JSON value (null, false, 0, the empty string). -/
def JsonValue.jsFalsy : JsonValue → Bool
  | .null => true
  | .bool b => !b
  | .num q => q = 0
  | .str s => s = ""
  | .arr _ => false
  | .obj _ => false
  | .time _ => false

/-- Look up a field of a JSON object field list (first occurrence; field
lists built by our parser and by the hub are duplicate-free). -/
def getField (fields : List (String × JsonValue)) (k : String) : Option JsonValue :=
  (fields.find? (fun f => f.1 = k)).map (fun f => f.2)

/-- Insert a field as JavaScript object construction does: an existing key is
overwritten in place, a new key is appended. -/
def insertField (fields : List (String × JsonValue)) (k : String) (v : JsonValue) :
    List (String × JsonValue) :=
  if fields.any (fun f => f.1 = k) then
    fields.map (fun f => if f.1 = k then (k, v) else f)
  else fields ++ [(k, v)]

/-- Remove the named fields from a JSON object field list (the rest-spread
of task normalization). -/
def removeFields (fields : List (String × JsonValue)) (ks : List String) :
    List (String × JsonValue) :=
  fields.filter (fun f => !(ks.contains f.1))

/-- Value of one base64 character in the standard or URL-safe alphabet. -/
def base64CharVal (urlSafe : Bool) (c : Char) : Option Nat :=
  if 'A' ≤ c ∧ c ≤ 'Z' then some (c.toNat - 'A'.toNat)
  else if 'a' ≤ c ∧ c ≤ 'z' then some (c.toNat - 'a'.toNat + 26)
  else if '0' ≤ c ∧ c ≤ '9' then some (c.toNat - '0'.toNat + 52)
  else if urlSafe then
    if c = '-' then some 62 else if c = '_' then some 63 else none
  else
    if c = '+' then some 62 else if c = '/' then some 63 else none

/-- Decode a padded base64 character list (length a multiple of 4) to bytes.
Padding is only accepted at the very end; inputs the decoder rejects are
treated as a failed decode (the source wraps the Buffer decode in try/catch,
and no hub code path feeds it the mixed-alphabet inputs Node would decode
leniently). -/
def base64DecodeGroups (urlSafe : Bool) : List Char → Option (List Nat)
  | [] => some []
  | c1 :: c2 :: c3 :: c4 :: rest => do
      let v1 ← base64CharVal urlSafe c1
      let v2 ← base64CharVal urlSafe c2
      if c3 = '=' then
        if c4 = '=' ∧ rest = [] then some [v1 * 4 + v2 / 16] else none
      else do
        let v3 ← base64CharVal urlSafe c3
        if c4 = '=' then
          if rest = [] then some [v1 * 4 + v2 / 16, (v2 % 16) * 16 + v3 / 4] else none
        else do
          let v4 ← base64CharVal urlSafe c4
          let bytes ← base64DecodeGroups urlSafe rest
          some ((v1 * 4 + v2 / 16) :: ((v2 % 16) * 16 + v3 / 4) :: ((v3 % 4) * 64 + v4) :: bytes)
  | _ => none

/-- Whether a byte is a UTF-8 continuation byte. -/
def utf8Cont (b : Nat) : Bool := 0x80 ≤ b ∧ b < 0xC0

/-- The replacement character emitted for invalid UTF-8 input. -/
def replChar : Char := Char.ofNat 0xFFFD

/-- One step of UTF-8 decoding with replacement: given a leading byte and
the remaining bytes, the characters emitted and the number of continuation
bytes consumed (zero on an invalid sequence, so decoding restarts at the
next byte as Buffer.toString does). -/
def utf8Step (b : Nat) (rest : List Nat) : List Char × Nat :=
  if b < 0x80 then ([Char.ofNat b], 0)
  else if 0xC2 ≤ b ∧ b ≤ 0xDF then
    match rest with
    | b2 :: _ =>
        if utf8Cont b2 then ([Char.ofNat ((b - 0xC0) * 64 + (b2 - 0x80))], 1)
        else ([replChar], 0)
    | [] => ([replChar], 0)
  else if 0xE0 ≤ b ∧ b ≤ 0xEF then
    match rest with
    | b2 :: b3 :: _ =>
        if utf8Cont b2 ∧ utf8Cont b3 then
          let cp := (b - 0xE0) * 4096 + (b2 - 0x80) * 64 + (b3 - 0x80)
          if 0x800 ≤ cp ∧ (cp < 0xD800 ∨ 0xE000 ≤ cp) then ([Char.ofNat cp], 2)
          else ([replChar], 0)
        else ([replChar], 0)
    | _ => ([replChar], 0)
  else if 0xF0 ≤ b ∧ b ≤ 0xF4 then
    match rest with
    | b2 :: b3 :: b4 :: _ =>
        if utf8Cont b2 ∧ utf8Cont b3 ∧ utf8Cont b4 then
          let cp := (b - 0xF0) * 262144 + (b2 - 0x80) * 4096 + (b3 - 0x80) * 64 + (b4 - 0x80)
          if 0x10000 ≤ cp ∧ cp ≤ 0x10FFFF then ([Char.ofNat cp], 3)
          else ([replChar], 0)
        else ([replChar], 0)
    | _ => ([replChar], 0)
  else ([replChar], 0)

/-- Fuelled driver for UTF-8 decoding; every iteration consumes at least one
byte, so fuel equal to the input length never runs out. -/
def utf8DecodeGo : Nat → List Nat → List Char
  | 0, _ => []
  | _, [] => []
  | fuel + 1, b :: rest =>
      let step := utf8Step b rest
      step.1 ++ utf8DecodeGo fuel (rest.drop step.2)

/-- Decode a byte list as UTF-8 the way Buffer.toString does: invalid
sequences become replacement characters and decoding restarts at the next
byte. -/
def utf8DecodeReplace (bs : List Nat) : List Char :=
  utf8DecodeGo bs.length bs

/-- The printable-ASCII probe of decodeMaybeBase64ToString: the characters
the regex class [\x20-\x7E\r\n\t] accepts. -/
def isPrintableOrWs (c : Char) : Bool :=
  (0x20 ≤ c.toNat ∧ c.toNat ≤ 0x7E) ∨ c = '\r' ∨ c = '\n' ∨ c = '\t'

/-- The character class of the base64Pattern regex [A-Za-z0-9+/=_-]. -/
def base64ExtChar (c : Char) : Bool :=
  c.isAlpha ∨ c.isDigit ∨ c = '+' ∨ c = '/' ∨ c = '=' ∨ c = '_' ∨ c = '-'

/-- decodeMaybeBase64ToString of the source: trim, strip an explicit
base64:/b64: tag, probe the base64 pattern and length, pad, decode with the
standard or URL-safe alphabet, and keep the decoded text only when it is
forced or passes the printable-ASCII and non-emptiness probes.  A decode the
byte decoder rejects falls back to the trimmed input, mirroring the
try/catch around the Buffer decode. -/
def decodeMaybeBase64ToString (raw : String) : String :=
  let trimmed := trimChars raw.data
  let tagged : List Char × Bool :=
    match trimmed with
    | 'b' :: 'a' :: 's' :: 'e' :: '6' :: '4' :: ':' :: rest => (rest, true)
    | 'b' :: '6' :: '4' :: ':' :: rest => (rest, true)
    | _ => (trimmed, false)
  let normalized := tagged.1
  let forced := tagged.2
  let patternOk := ¬ normalized.isEmpty ∧ normalized.all base64ExtChar
  if ¬ forced ∧ (¬ patternOk ∨ (normalized.length % 4 ≠ 0 ∧ ¬ normalized.contains '=')) then
    String.mk trimmed
  else
    let needsPadding := normalized.length % 4
    let padded :=
      if needsPadding = 0 then normalized
      else normalized ++ List.replicate (4 - needsPadding) '='
    let urlSafe := normalized.contains '-' ∨ normalized.contains '_'
    match base64DecodeGroups urlSafe padded with
    | none => String.mk trimmed
    | some bytes =>
        let decoded := utf8DecodeReplace bytes
        if ¬ forced ∧ decoded.any (fun c => ¬ isPrintableOrWs c) then String.mk trimmed
        else if ¬ forced ∧ (trimChars decoded).isEmpty then String.mk trimmed
        else String.mk decoded

/-- Skip JSON insignificant whitespace. -/
def skipWs (cs : List Char) : List Char := cs.dropWhile isWsChar

/-- Value of a hexadecimal digit. -/
def hexVal (c : Char) : Option Nat :=
  if c.isDigit then some (c.toNat - '0'.toNat)
  else if 'a' ≤ c ∧ c ≤ 'f' then some (c.toNat - 'a'.toNat + 10)
  else if 'A' ≤ c ∧ c ≤ 'F' then some (c.toNat - 'A'.toNat + 10)
  else none

/-- Parse exactly four hexadecimal digits (the \uXXXX escape). -/
def parseHex4 : List Char → Option (Nat × List Char)
  | c1 :: c2 :: c3 :: c4 :: rest => do
      let v1 ← hexVal c1
      let v2 ← hexVal c2
      let v3 ← hexVal c3
      let v4 ← hexVal c4
      some (((v1 * 16 + v2) * 16 + v3) * 16 + v4, rest)
  | _ => none

/-- Parse the body of a JSON string (after the opening quote), returning the
string and the input after the closing quote. -/
def parseJsonString : Nat → List Char → List Char → Option (String × List Char)
  | 0, _, _ => none
  | fuel + 1, acc, cs =>
      match cs with
      | '"' :: rest => some (String.mk acc.reverse, rest)
      | '\\' :: esc :: rest =>
          match esc with
          | '"' => parseJsonString fuel ('"' :: acc) rest
          | '\\' => parseJsonString fuel ('\\' :: acc) rest
          | '/' => parseJsonString fuel ('/' :: acc) rest
          | 'n' => parseJsonString fuel ('\n' :: acc) rest
          | 't' => parseJsonString fuel ('\t' :: acc) rest
          | 'r' => parseJsonString fuel ('\r' :: acc) rest
          | 'b' => parseJsonString fuel (Char.ofNat 8 :: acc) rest
          | 'f' => parseJsonString fuel (Char.ofNat 12 :: acc) rest
          | 'u' => do
              let (n, rest2) ← parseHex4 rest
              parseJsonString fuel (Char.ofNat n :: acc) rest2
          | _ => none
      | c :: rest =>
          if c = '\\' ∨ c.toNat < 0x20 then none
          else parseJsonString fuel (c :: acc) rest
      | [] => none

/-- Parse the tail of a JSON number (fraction and exponent) given the sign
and integer part already consumed. -/
def parseNumTail (neg : Bool) (ip : Nat) (cs : List Char) : Option (JsonValue × List Char) := do
  let fracPart ←
    match cs with
    | '.' :: r =>
        let ds := r.takeWhile Char.isDigit
        if ds.isEmpty then none
        else some (digitsToNat ds, ds.length, r.drop ds.length)
    | _ => some (0, 0, cs)
  let (fracNum, fracLen, cs2) := fracPart
  let expPart ←
    match cs2 with
    | 'e' :: r | 'E' :: r =>
        let signed : Bool × List Char :=
          match r with
          | '-' :: rr => (true, rr)
          | '+' :: rr => (false, rr)
          | _ => (false, r)
        let ds := signed.2.takeWhile Char.isDigit
        if ds.isEmpty then none
        else some (signed.1, digitsToNat ds, signed.2.drop ds.length)
    | _ => some (false, 0, cs2)
  let (expNeg, expVal, cs3) := expPart
  let mag : ℚ := ((ip : ℚ) + (fracNum : ℚ) / (10 : ℚ) ^ fracLen) *
    (if expNeg then ((10 : ℚ) ^ expVal)⁻¹ else (10 : ℚ) ^ expVal)
  some (.num (if neg then -mag else mag), cs3)

/-- Parse a JSON number (JSON.parse grammar: no leading zeros, optional
fraction and exponent). -/
def parseJsonNumber (cs : List Char) : Option (JsonValue × List Char) :=
  let signed : Bool × List Char :=
    match cs with
    | '-' :: r => (true, r)
    | _ => (false, cs)
  match signed.2 with
  | '0' :: rest => parseNumTail signed.1 0 rest
  | c :: _ =>
      if c.isDigit then
        let ds := signed.2.takeWhile Char.isDigit
        parseNumTail signed.1 (digitsToNat ds) (signed.2.drop ds.length)
      else none
  | [] => none

/-- Collapse duplicate keys of a parsed member list the way JSON.parse
builds objects: first position is kept, last value wins. -/
def canonFields (raw : List (String × JsonValue)) : List (String × JsonValue) :=
  raw.foldl (fun acc kv => insertField acc kv.1 kv.2) []

/-- The three parsing modes of the recursive-descent JSON parser: a value,
the items of a non-empty array, or the members of a non-empty object. -/
inductive PMode where
  | value : PMode
  | items : PMode
  | members : PMode

/-- The result of one parsing mode. -/
inductive PResult where
  | val (v : JsonValue) : PResult
  | items (vs : List JsonValue) : PResult
  | members (fs : List (String × JsonValue)) : PResult

/-- Recursive-descent parser for the JSON.parse grammar.  The fuel decreases
on every recursive call; fuel set from the input length bounds the nesting
depth, since every recursive call consumes at least one input character. -/
def parseJsonCore : Nat → PMode → List Char → Option (PResult × List Char)
  | 0, _, _ => none
  | fuel + 1, .value, cs =>
      (match skipWs cs with
       | 'n' :: 'u' :: 'l' :: 'l' :: rest => some (.val .null, rest)
       | 't' :: 'r' :: 'u' :: 'e' :: rest => some (.val (.bool true), rest)
       | 'f' :: 'a' :: 'l' :: 's' :: 'e' :: rest => some (.val (.bool false), rest)
       | '"' :: rest => (parseJsonString fuel [] rest).map (fun p => (.val (.str p.1), p.2))
       | '[' :: rest =>
           (match skipWs rest with
            | ']' :: rest2 => some (.val (.arr []), rest2)
            | _ =>
                match parseJsonCore fuel .items rest with
                | some (.items vs, rest2) => some (.val (.arr vs), rest2)
                | _ => none)
       | '{' :: rest =>
           (match skipWs rest with
            | '}' :: rest2 => some (.val (.obj []), rest2)
            | _ =>
                match parseJsonCore fuel .members rest with
                | some (.members fs, rest2) => some (.val (.obj (canonFields fs)), rest2)
                | _ => none)
       | other => (parseJsonNumber other).map (fun p => (.val p.1, p.2)))
  | fuel + 1, .items, cs =>
      (match parseJsonCore fuel .value cs with
       | some (.val v, rest) =>
           (match skipWs rest with
            | ',' :: rest2 =>
                (match parseJsonCore fuel .items rest2 with
                 | some (.items vs, rest3) => some (.items (v :: vs), rest3)
                 | _ => none)
            | ']' :: rest2 => some (.items [v], rest2)
            | _ => none)
       | _ => none)
  | fuel + 1, .members, cs =>
      (match skipWs cs with
       | '"' :: rest =>
           (match parseJsonString fuel [] rest with
            | some (k, rest2) =>
                (match skipWs rest2 with
                 | ':' :: rest3 =>
                     (match parseJsonCore fuel .value rest3 with
                      | some (.val v, rest4) =>
                          (match skipWs rest4 with
                           | ',' :: rest5 =>
                               (match parseJsonCore fuel .members rest5 with
                                | some (.members fs, rest6) => some (.members ((k, v) :: fs), rest6)
                                | _ => none)
                           | '}' :: rest5 => some (.members [(k, v)], rest5)
                           | _ => none)
                      | _ => none)
                 | _ => none)
            | none => none)
       | _ => none)

/-- JSON.parse: a full-input parse of the value grammar; trailing
non-whitespace is a parse failure. -/
def jsonParse (s : String) : Option JsonValue :=
  match parseJsonCore (s.data.length + 1) .value s.data with
  | some (.val v, rest) => if (skipWs rest).isEmpty then some v else none
  | _ => none

/-- parseMaybeJson of the source: decode a possible base64 layer, then try
JSON.parse, falling back to the decoded text itself. -/
def parseMaybeJson (value : String) : JsonValue :=
  let text := decodeMaybeBase64ToString value
  match jsonParse text with
  | some v => v
  | none => .str text

/-- The self-reported identity of a client at join time. -/
structure ClientInfo where
  id : String
  joinedAt : String
  vector : List ℚ
deriving DecidableEq

/-- One registry entry.  The RPC stub owned by the entry is modelled by an
opaque handle number; delivery outcomes on a handle are supplied by an
oracle, since they depend on the remote session. -/
structure ClientRecord where
  handle : Nat
  info : ClientInfo
deriving DecidableEq

/-- Outcome of delivering one message on a session handle: success, an error
whose message matches the dead-session set (disposed stub / cross-request
I/O), or any other error. -/
inductive DeliveryOutcome where
  | ok : DeliveryOutcome
  | deadError : DeliveryOutcome
  | otherError : DeliveryOutcome
deriving DecidableEq

/-- removeClient restricted to its registry effect: the record owning the
handle is spliced out.  (In the source, removal also notifies pending
coordinators; that cascade is modelled at the hub level where it is used.) -/
def removeByHandle (clients : List ClientRecord) (h : Nat) : List ClientRecord :=
  clients.filter (fun c => c.handle != h)

/-- The registry-level outcome of one broadcast call: the handles the
message was delivered to (the snapshot), the returned recipient count, and
the registry afterwards. -/
structure BroadcastResult where
  delivered : List Nat
  returned : Nat
  clients : List ClientRecord

/-- HubApi.broadcast: an empty registry returns 0 immediately; otherwise a
snapshot is taken, the message is delivered to every snapshot entry (in
parallel in the source; the deliveries are independent and the evictions
commute, so they are folded here in snapshot order), recipients whose
delivery fails with a dead-session error are evicted, and the length of the
clients array after the awaited deliveries is returned. -/
def broadcast (deliver : Nat → DeliveryOutcome) (_message : JsonValue)
    (clients : List ClientRecord) : BroadcastResult :=
  if clients.isEmpty then { delivered := [], returned := 0, clients := clients }
  else
    let snapshot := clients
    let final := snapshot.foldl
      (fun acc c => if deliver c.handle = .deadError then removeByHandle acc c.handle else acc)
      clients
    { delivered := snapshot.map (fun c => c.handle), returned := final.length, clients := final }

/-- One key-value entry as the hub stores it.  The backing store holds the
JSON string produced by JSON.stringify on this record; since every hub
writer serializes exactly this shape, entries are modelled in parsed form. -/
structure KVEntry where
  value : String
  expiresAt : Option Int
deriving DecidableEq

/-- Find the entry stored under a key. -/
def kvGet (storage : List (String × KVEntry)) (k : String) : Option KVEntry :=
  (storage.find? (fun e => e.1 = k)).map (fun e => e.2)

/-- storage.put: overwrite the entry under the key or append a new one. -/
def kvPut (storage : List (String × KVEntry)) (k : String) (v : KVEntry) :
    List (String × KVEntry) :=
  if storage.any (fun e => e.1 = k) then
    storage.map (fun e => if e.1 = k then (k, v) else e)
  else storage ++ [(k, v)]

/-- storage.delete: drop the entry under the key. -/
def kvDelete (storage : List (String × KVEntry)) (k : String) : List (String × KVEntry) :=
  storage.filter (fun e => e.1 != k)

/-- RpcHub.scheduleAlarmForExpiration: read the current alarm and overwrite
it with the new expiration when there is no current alarm (a stored alarm of
exactly 0 is falsy in the source's check and also counts as absent) or the
new expiration is strictly earlier. -/
def scheduleAlarmForExpiration (currentAlarm : Option Int) (newExpiration : Int) : Option Int :=
  if ¬ truthyTime currentAlarm ∨ newExpiration < currentAlarm.getD 0 then some newExpiration
  else currentAlarm

/-- The sweep of RpcHub.handleAlarm: delete every entry whose expiresAt is
truthy and strictly past. -/
def handleAlarmSweep (now : Int) (storage : List (String × KVEntry)) :
    List (String × KVEntry) :=
  storage.filter (fun e => !(truthyTime e.2.expiresAt && decide (now > e.2.expiresAt.getD 0)))

/-- RpcHub.scheduleNextAlarm: the earliest truthy expiresAt of the remaining
entries, if any. -/
def scheduleNextAlarm (storage : List (String × KVEntry)) : Option Int :=
  storage.foldl
    (fun next e =>
      match e.2.expiresAt with
      | some t => if t ≠ 0 ∧ (¬ truthyTime next ∨ t < next.getD 0) then some t else next
      | none => next)
    none

/-- HubApi.distance: over the common prefix of the two vectors, the
Euclidean distance plus the length difference as a penalty; a common length
of zero yields positive infinity.  Vector components are modelled as reals. -/
noncomputable def distance (a b : List ℝ) : EReal :=
  if Nat.min a.length b.length = 0 then ⊤
  else
    (((Real.sqrt (((a.zip b).map (fun p => (p.1 - p.2) ^ 2)).sum) +
        |(a.length : ℝ) - (b.length : ℝ)|) : ℝ) : EReal)

/-- One typed benchmark result as recorded by the benchmark report handler. -/
structure BenchmarkResult where
  clientId : String
  durationMs : ℚ
  iterations : ℚ
  opsPerSecond : Option ℚ
  receivedAt : Int
  details : Option JsonValue

/-- The request-scoped state of one pending benchmark (the timer handle and
the resolver are modelled by the explicit resolution function below). -/
structure PendingBenchmark where
  requestId : String
  requesterId : Option String
  createdAt : Int
  iterations : Nat
  timeoutMs : Nat
  expected : List String
  results : List BenchmarkResult

/-- The summary a benchmark resolves with. -/
structure BenchmarkSummary where
  requestId : String
  requesterId : Option String
  iterations : Nat
  timeoutMs : Nat
  startedAt : Int
  completedAt : Int
  durationMs : Int
  participants : Nat
  responded : Nat
  pending : List String
  results : List BenchmarkResult
  message : String

/-- The clientIds of a participant snapshot as a JavaScript Set collects
them: first-insertion order, duplicates dropped. -/
def setOfIds (participants : List ClientRecord) : List String :=
  participants.foldl (fun acc c => if acc.contains c.info.id then acc else acc ++ [c.info.id]) []

/-- The pending benchmark stored at dispatch time (the expected set is built
from the snapshot's clientIds, the results list starts empty). -/
def initBenchmark (requestId : String) (requesterId : Option String) (now : Int)
    (iterations timeoutMs : Nat) (snapshot : List ClientRecord) : PendingBenchmark :=
  { requestId := requestId, requesterId := requesterId, createdAt := now,
    iterations := iterations, timeoutMs := timeoutMs,
    expected := setOfIds snapshot, results := [] }

/-- HubApi.resolveBenchmark: the summary constructed from the pending state
at resolution time.  participants is the count of recorded results plus the
still-expected set; pending lists the still-expected clientIds. -/
def resolveBenchmark (now : Int) (message : Option String) (p : PendingBenchmark) :
    BenchmarkSummary :=
  { requestId := p.requestId, requesterId := p.requesterId, iterations := p.iterations,
    timeoutMs := p.timeoutMs, startedAt := p.createdAt, completedAt := now,
    durationMs := now - p.createdAt,
    participants := p.results.length + p.expected.length,
    responded := p.results.length,
    pending := p.expected,
    results := p.results,
    message :=
      match message with
      | some m => m
      | none =>
          if p.expected.length = 0 then "Benchmark completed"
          else "Benchmark completed with missing responses" }

/-- Extract a numeric field of a details object, as the report handler's
typeof checks do. -/
def detailsNumField (details : Option JsonValue) (k : String) : Option ℚ :=
  match details with
  | some (.obj fs) =>
      match getField fs k with
      | some (.num q) => some q
      | _ => none
  | _ => none

/-- The state effect of one accepted benchmark report (the body of the
benchmark report branch of runCommand, after the pending lookup): the report
is recorded only when no result with the responder's clientId exists yet,
and the responder is always dropped from the expected set.  A missing caller
clientId reports as "unknown". -/
def applyBenchmarkReport (now : Int) (clientId : Option String) (durationMs : ℚ)
    (details : Option JsonValue) (p : PendingBenchmark) : PendingBenchmark :=
  let responderId := clientId.getD "unknown"
  let results :=
    if p.results.any (fun r => r.clientId = responderId) then p.results
    else
      p.results ++ [{ clientId := responderId, durationMs := durationMs,
                      iterations := (detailsNumField details "iterations").getD (p.iterations : ℚ),
                      opsPerSecond := detailsNumField details "opsPerSec",
                      receivedAt := now, details := details }]
  { p with results := results,
           expected := p.expected.filter (fun x => x != responderId) }

/-- The response the benchmark report branch returns once the pending lookup
succeeded: always accepted. -/
def benchmarkReportResponse (requestId : String) : JsonValue :=
  .obj [("command", .str "benchmark-report"), ("requestId", .str requestId),
        ("accepted", .bool true)]

/-- handleBenchmarkDeparture restricted to one pending benchmark: the
departing clientId is dropped from the expected set. -/
def benchmarkDeparture (clientId : String) (p : PendingBenchmark) : PendingBenchmark :=
  { p with expected := p.expected.filter (fun x => x != clientId) }

/-- Traces of benchmark reports in which every reporter is still expected at
the time of its report (the discipline under which the participant count is
preserved). -/
inductive InExpectedReports : PendingBenchmark → PendingBenchmark → Prop
  | refl (p : PendingBenchmark) : InExpectedReports p p
  | step {p q : PendingBenchmark} (now : Int) (clientId : Option String) (durationMs : ℚ)
      (details : Option JsonValue)
      (hmem : clientId.getD "unknown" ∈ p.expected)
      (htail : InExpectedReports (applyBenchmarkReport now clientId durationMs details p) q) :
      InExpectedReports p q

/-- The closed set of reducers. -/
inductive MapReduceReducer where
  | collect : MapReduceReducer
  | sum : MapReduceReducer
  | average : MapReduceReducer
  | concat : MapReduceReducer
  | count : MapReduceReducer
  | merge : MapReduceReducer
deriving DecidableEq

/-- A parsed task before dispatch. -/
structure MapReduceTaskDescriptor where
  taskId : String
  payload : JsonValue
  metadata : Option JsonValue

/-- The mutable per-task state of a pending map-reduce. -/
structure MapReduceTaskState where
  taskId : String
  payload : JsonValue
  metadata : Option JsonValue
  assignedTo : Option String
  assignedAt : Option Int
  attempts : Nat
  completedAt : Option Int
  result : Option JsonValue
  error : Option String
  resultMetadata : Option JsonValue

/-- The request-scoped state of one pending map-reduce. -/
structure PendingMapReduce where
  requestId : String
  requesterId : Option String
  createdAt : Int
  timeoutMs : Nat
  reducer : MapReduceReducer
  tasks : List MapReduceTaskState
  nextClientIndex : Nat

/-- One entry of the results list of a map-reduce summary. -/
structure MapReduceResultEntry where
  taskId : String
  assignedTo : Option String
  attempts : Nat
  durationMs : Option Int
  result : Option JsonValue
  error : Option String
  metadata : Option JsonValue

/-- The summary a map-reduce resolves with. -/
structure MapReduceSummary where
  requestId : String
  requesterId : Option String
  reducer : MapReduceReducer
  startedAt : Int
  completedAt : Int
  durationMs : Int
  totalTasks : Nat
  completedTasks : Nat
  failedTasks : Nat
  pendingTasks : Nat
  results : List MapReduceResultEntry
  reducedValue : JsonValue
  message : String

/-- HubApi.normalizeReducer: alias groups mapping to canonical reducers,
anything else collecting. -/
def normalizeReducer (raw : Option String) : MapReduceReducer :=
  let value := lowerString (raw.getD "collect")
  if ["sum", "add", "total"].contains value then .sum
  else if ["avg", "average", "mean"].contains value then .average
  else if ["concat", "join", "string"].contains value then .concat
  else if ["count", "len", "length"].contains value then .count
  else if ["merge", "object", "combine"].contains value then .merge
  else .collect

/-- HubApi.parsePositiveInt: fall back unless the parse yields a positive
integer. -/
def parsePositiveInt (value : Option String) (fallback : Nat) : Nat :=
  match value with
  | none => fallback
  | some s =>
      match parseIntJs s with
      | some n => if 0 < n then n.toNat else fallback
      | none => fallback

/-- Numeric coercion of the sum and average reducers: numbers kept, strings
passed through parseFloat and kept when finite, everything else dropped. -/
def coerceNumeric (v : Option JsonValue) : Option ℚ :=
  match v with
  | some (.num q) => some q
  | some (.str s) => parseFloatJs s
  | _ => none

/-- JavaScript String(value) restricted to the values task results take;
number and timestamp renderings are abstracted to their decimal forms. -/
def jsToString : JsonValue → String
  | .null => "null"
  | .bool b => if b then "true" else "false"
  | .num q => toString q
  | .str s => s
  | .arr _ => "array"
  | .obj _ => "[object Object]"
  | .time t => toString t

/-- The concat reducer's per-result rendering: null and undefined become the
empty string, everything else goes through String(value). -/
def concatPiece : Option JsonValue → String
  | none => ""
  | some .null => ""
  | some v => jsToString v

/-- Object.assign merging of the merge reducer restricted to non-array
object results, left to right. -/
def mergeObjects (results : List (Option JsonValue)) : List (String × JsonValue) :=
  results.foldl
    (fun acc v =>
      match v with
      | some (.obj fs) => fs.foldl (fun a kv => insertField a kv.1 kv.2) acc
      | _ => acc)
    []

/-- HubApi.reduceMapReduceResults applied to the successful results (an
undefined element renders as null in the collected list, matching its JSON
serialization). -/
def reduceMapReduceResults (reducer : MapReduceReducer) (results : List (Option JsonValue)) :
    JsonValue :=
  match reducer with
  | .sum => .num ((results.filterMap coerceNumeric).sum)
  | .average =>
      let numbers := results.filterMap coerceNumeric
      if numbers.length = 0 then .num 0
      else .num (numbers.sum / (numbers.length : ℚ))
  | .concat => .str (String.join (results.map concatPiece))
  | .count => .num (results.length : ℚ)
  | .merge => .obj (mergeObjects results)
  | .collect => .arr (results.map (fun o => o.getD .null))

/-- Normalization of one element of a task list: a non-array object supplies
taskId/id, payload/value/data (nullish-coalesced, so an explicit JSON null
falls through to the next candidate and finally to the rest object) and
metadata (any truthy object, arrays included); every other value is wrapped
as the payload of task-(index+1). -/
def normalizeTaskFromEntry (index : Nat) (entry : JsonValue) : MapReduceTaskDescriptor :=
  match entry with
  | .obj fields =>
      let taskId :=
        match getField fields "taskId" with
        | some (.str s) => s
        | _ =>
            match getField fields "id" with
            | some (.str s) => s
            | _ => "task-" ++ toString (index + 1)
      let rest := removeFields fields ["payload", "value", "data", "taskId", "id", "metadata"]
      let pick (k : String) : Option JsonValue :=
        match getField fields k with
        | some .null => none
        | o => o
      let payloadValue :=
        (pick "payload").getD ((pick "value").getD ((pick "data").getD (.obj rest)))
      let metadata :=
        match getField fields "metadata" with
        | some (.obj fs) => some (JsonValue.obj fs)
        | some (.arr xs) => some (JsonValue.arr xs)
        | _ => none
      { taskId := taskId, payload := payloadValue, metadata := metadata }
  | _ => { taskId := "task-" ++ toString (index + 1), payload := entry, metadata := none }

/-- Normalization of a task list. -/
def normalizeArrayTasks (items : List JsonValue) : List MapReduceTaskDescriptor :=
  items.enum.map (fun p => normalizeTaskFromEntry p.1 p.2)

/-- HubApi.normalizeMapReduceTasks: a falsy source yields no tasks; a list
normalizes elementwise; an object with a tasks list recurses into it; any
other object turns each non-reserved key/value into a task; everything else
yields no tasks. -/
def normalizeMapReduceTasks (source : JsonValue) : List MapReduceTaskDescriptor :=
  if source.jsFalsy then []
  else
    match source with
    | .arr items => normalizeArrayTasks items
    | .obj fields =>
        (match getField fields "tasks" with
         | some (.arr items) => normalizeArrayTasks items
         | _ =>
             fields.filterMap (fun f =>
               if f.1 = "metadata" ∨ f.1 = "config" then none
               else some { taskId := f.1, payload := f.2, metadata := none }))
    | _ => []

/-- The outcome of dispatching one task: the updated task and new round
robin cursor on success, together with the registry (candidates whose
delivery failed are evicted; in the source any delivery error evicts here). -/
structure DispatchOutcome where
  dispatched : Option (MapReduceTaskState × Nat)
  clients : List ClientRecord

/-- The candidate loop of HubApi.dispatchMapReduceTask: walk the snapshot
round robin from the start index; a successful delivery records
assignedTo/assignedAt, increments attempts and moves the cursor past the
candidate's position in the current registry; a failed delivery evicts the
candidate and tries the next.  (The delivered message carries the task
payload, metadata, reducer, task count, timeout and the incremented attempt
count; eviction's coordinator-side cascade is modelled at the hub level.) -/
def dispatchLoop (now : Int) (deliver : Nat → DeliveryOutcome)
    (participants : List ClientRecord) (startIndex : Nat) (task : MapReduceTaskState) :
    Nat → Nat → List ClientRecord → DispatchOutcome
  | 0, _, cur => { dispatched := none, clients := cur }
  | remaining + 1, offset, cur =>
      match participants[(startIndex + offset) % participants.length]? with
      | none => { dispatched := none, clients := cur }
      | some candidate =>
          match deliver candidate.handle with
          | .ok =>
              let t :=
                { task with assignedTo := some candidate.info.id,
                            assignedAt := some now, attempts := task.attempts + 1 }
              let nci :=
                if cur.length = 0 then 0
                else
                  match cur.findIdx? (fun e => e.info.id = candidate.info.id) with
                  | none => 0
                  | some i => (i + 1) % cur.length
              { dispatched := some (t, nci), clients := cur }
          | _ =>
              dispatchLoop now deliver participants startIndex task remaining (offset + 1)
                (removeByHandle cur candidate.handle)

/-- HubApi.dispatchMapReduceTask: an empty snapshot dispatches nothing;
otherwise the candidate loop starts at the recorded cursor modulo the
snapshot length. -/
def dispatchMapReduceTask (now : Int) (deliver : Nat → DeliveryOutcome)
    (clients : List ClientRecord) (nextClientIndex : Nat) (task : MapReduceTaskState) :
    DispatchOutcome :=
  let participants := clients
  if participants.isEmpty then { dispatched := none, clients := clients }
  else
    dispatchLoop now deliver participants (nextClientIndex % participants.length) task
      participants.length 0 clients

/-- The dispatch phase of HubApi.startMapReduce: each parsed descriptor
becomes a task with zero attempts and is dispatched in order; a task no
candidate accepts completes immediately with the dispatch-failure error. -/
structure StartedMapReduce where
  pending : PendingMapReduce
  clients : List ClientRecord

/-- Initial task state of a descriptor. -/
def initTaskState (d : MapReduceTaskDescriptor) : MapReduceTaskState :=
  { taskId := d.taskId, payload := d.payload, metadata := d.metadata,
    assignedTo := none, assignedAt := none, attempts := 0,
    completedAt := none, result := none, error := none, resultMetadata := none }

/-- HubApi.startMapReduce after parsing: store the pending map-reduce and
dispatch every task (the completion check that may resolve it immediately is
applied by the caller). -/
def startMapReduceCore (now : Int) (deliver : Nat → DeliveryOutcome) (requestId : String)
    (requesterId : Option String) (reducer : MapReduceReducer) (timeoutMs : Nat)
    (descriptors : List MapReduceTaskDescriptor) (clients : List ClientRecord) :
    StartedMapReduce :=
  let res := (descriptors.map initTaskState).foldl
    (fun (acc : List MapReduceTaskState × List ClientRecord × Nat) task =>
      let out := dispatchMapReduceTask now deliver acc.2.1 acc.2.2 task
      match out.dispatched with
      | some (t, nci) => (acc.1 ++ [t], out.clients, nci)
      | none =>
          (acc.1 ++ [{ task with error := some "Failed to dispatch task to any client",
                                 completedAt := some now }],
           out.clients, acc.2.2))
    ([], clients, 0)
  { pending :=
      { requestId := requestId, requesterId := requesterId, createdAt := now,
        timeoutMs := timeoutMs, reducer := reducer, tasks := res.1,
        nextClientIndex := res.2.2 },
    clients := res.2.1 }

/-- The force-completion loop of HubApi.resolveMapReduce: every task without
a truthy completedAt is completed at the resolution time, keeping an already
recorded error and defaulting to "No response received" otherwise. -/
def forceCompleteTasks (now : Int) (tasks : List MapReduceTaskState) :
    List MapReduceTaskState :=
  tasks.map (fun t =>
    if truthyTime t.completedAt then t
    else { t with completedAt := some now,
                  error := some (t.error.getD "No response received") })

/-- durationMs of a result entry: completedAt minus assignedAt when both are
truthy. -/
def taskDurationMs (t : MapReduceTaskState) : Option Int :=
  if truthyTime t.completedAt ∧ truthyTime t.assignedAt then
    some (t.completedAt.getD 0 - t.assignedAt.getD 0)
  else none

/-- One summary result entry of a task (a truthy error suppresses the
recorded result). -/
def taskResultEntry (t : MapReduceTaskState) : MapReduceResultEntry :=
  { taskId := t.taskId, assignedTo := t.assignedTo, attempts := t.attempts,
    durationMs := taskDurationMs t,
    result := if errTruthy t.error then none else t.result,
    error := t.error, metadata := t.resultMetadata }

/-- The successful results fed to the reducer: tasks with a truthy
completedAt and no truthy error, projected to their recorded results. -/
def successInputs (tasks : List MapReduceTaskState) : List (Option JsonValue) :=
  (tasks.filter (fun t => truthyTime t.completedAt && !(errTruthy t.error))).map
    (fun t => t.result)

/-- HubApi.resolveMapReduce: force-complete the unfinished tasks, build the
result entries, reduce the successful results, and count completed, failed
and pending tasks.  pendingTasks counts the tasks that were unfinished when
resolution began; completedTasks and failedTasks are counted after the
force-completion. -/
def resolveMapReduce (now : Int) (message : Option String) (p : PendingMapReduce) :
    MapReduceSummary :=
  let unfinished := p.tasks.filter (fun t => !(truthyTime t.completedAt))
  let tasks := forceCompleteTasks now p.tasks
  let failedTasks := (tasks.filter (fun t => errTruthy t.error)).length
  let pendingTasks := unfinished.length
  { requestId := p.requestId, requesterId := p.requesterId, reducer := p.reducer,
    startedAt := p.createdAt, completedAt := now, durationMs := now - p.createdAt,
    totalTasks := p.tasks.length,
    completedTasks := (tasks.filter (fun t => truthyTime t.completedAt)).length,
    failedTasks := failedTasks,
    pendingTasks := pendingTasks,
    results := tasks.map taskResultEntry,
    reducedValue := reduceMapReduceResults p.reducer (successInputs tasks),
    message :=
      match message with
      | some m => m
      | none =>
          if failedTasks = 0 ∧ pendingTasks = 0 then "MapReduce completed successfully"
          else if 0 < failedTasks then "MapReduce completed with errors"
          else "MapReduce completed with pending tasks" }

/-- HubApi.checkMapReduceCompletion's test: every task has a truthy
completedAt. -/
def mapReduceAllDone (p : PendingMapReduce) : Bool :=
  p.tasks.all (fun t => truthyTime t.completedAt)

/-- Split a token at its first equals sign (String.indexOf of the source);
none models indexOf returning -1. -/
def splitEq : List Char → Option (List Char × List Char)
  | [] => none
  | '=' :: rest => some ([], rest)
  | c :: rest => (splitEq rest).map (fun p => (c :: p.1, p.2))

/-- The option loop of HubApi.handleMapReduceReport over the tokens after
requestId and taskId: the first bare token (while none is recorded) is the
encoded result, result=/value= keys set it under the same guard, error= is
base64-decoded, metadata= is parsed; later error=/metadata= occurrences
overwrite earlier ones. -/
def parseReportOptions (tokens : List String) :
    Option String × Option String × Option JsonValue :=
  tokens.foldl
    (fun acc token =>
      if token = "" then acc
      else
        match splitEq token.data with
        | none =>
            if acc.1.isNone then (some token, acc.2.1, acc.2.2) else acc
        | some (pre, post) =>
            let key := lowerString (String.mk pre)
            let value := String.mk post
            if (key = "result" ∨ key = "value") ∧ acc.1.isNone then
              (some value, acc.2.1, acc.2.2)
            else if key = "error" then
              (acc.1, some (decodeMaybeBase64ToString value), acc.2.2)
            else if key = "metadata" then
              (acc.1, acc.2.1, some (parseMaybeJson value))
            else acc)
    (none, none, none)

/-- Replace the first task carrying the given taskId (the source mutates the
task object Array.prototype.find returned). -/
def updateFirstTask (tasks : List MapReduceTaskState) (taskId : String)
    (t : MapReduceTaskState) : List MapReduceTaskState :=
  match tasks with
  | [] => []
  | x :: rest =>
      if x.taskId = taskId then t :: rest else x :: updateFirstTask rest taskId t

/-- The usage error of the report subcommand. -/
def mapReduceReportUsage : JsonValue :=
  .obj [("command", .str "mapreduce-report"),
        ("error", .str "Usage: mapreduce report <requestId> <taskId> [<result>|result=<value>] [error=<message>] [metadata=<json>]")]

/-- HubApi.handleMapReduceReport after the pending lookup (tokens are
[requestId, taskId, options...]).  When neither a result nor an error was
supplied (both JavaScript-falsy), the encoded result defaults to the literal
string "null".  A truthy error records the error and clears the result; an
available encoded result is parsed and recorded; metadata, when present, is
recorded.  An unknown taskId and an already completed task are rejected; a
report from a client other than assignedTo is only logged, so the caller's
clientId does not affect the outcome. -/
def handleMapReduceReport (now : Int) (_clientId : Option String) (tokens : List String)
    (p : PendingMapReduce) : PendingMapReduce × JsonValue :=
  if tokens.length < 2 then (p, mapReduceReportUsage)
  else
    let requestId := tokens.headD ""
    let taskId := (tokens.drop 1).headD ""
    let parsed := parseReportOptions (tokens.drop 2)
    let errorMessage := parsed.2.1
    let metadata := parsed.2.2
    let encodedResult :=
      if jsFalsyStr parsed.1 ∧ jsFalsyStr errorMessage then some "null" else parsed.1
    match p.tasks.find? (fun t => t.taskId = taskId) with
    | none =>
        (p, .obj [("command", .str "mapreduce-report"), ("requestId", .str requestId),
                  ("taskId", .str taskId), ("accepted", .bool false),
                  ("error", .str "Unknown task identifier")])
    | some t =>
        if truthyTime t.completedAt then
          (p, .obj [("command", .str "mapreduce-report"), ("requestId", .str requestId),
                    ("taskId", .str taskId), ("accepted", .bool false),
                    ("error", .str "Task already reported")])
        else
          let withResult :=
            if errTruthy errorMessage then
              { t with completedAt := some now, error := errorMessage, result := none }
            else
              match encodedResult with
              | some enc => { t with completedAt := some now, result := some (parseMaybeJson enc) }
              | none => { t with completedAt := some now }
          let updated :=
            match metadata with
            | some m => { withResult with resultMetadata := some m }
            | none => withResult
          ({ p with tasks := updateFirstTask p.tasks taskId updated },
           .obj [("command", .str "mapreduce-report"), ("requestId", .str requestId),
                 ("taskId", .str taskId), ("accepted", .bool true)])

/-- The cancellation message of HubApi.handleMapReduceCancel. -/
def cancelMessage (clientId : Option String) : String :=
  "MapReduce cancelled" ++ (match clientId with | some c => " by " ++ c | none => "")

/-- HubApi.handleMapReduceCancel after the pending lookup: resolve the
pending map-reduce with the cancellation message and acknowledge. -/
def handleMapReduceCancelCore (now : Int) (clientId : Option String)
    (p : PendingMapReduce) : MapReduceSummary × JsonValue :=
  (resolveMapReduce now (some (cancelMessage clientId)) p,
   .obj [("command", .str "mapreduce-cancel"), ("requestId", .str p.requestId),
         ("cancelled", .bool true)])

/-- HubApi.handleMapReduceDeparture restricted to one pending map-reduce:
clear the assignment of every uncompleted task held by the departing client.
(The deferred re-dispatch posted by the source is modelled by
reassignDepartedTask below.) -/
def mapReduceDeparture (clientId : String) (p : PendingMapReduce) : PendingMapReduce :=
  { p with tasks := p.tasks.map (fun t =>
      if !(truthyTime t.completedAt) ∧ t.assignedTo = some clientId then
        { t with assignedTo := none, assignedAt := none }
      else t) }

/-- The deferred callback of the departure handler for one cleared task:
re-dispatch it; if no candidate remains, complete it with the reassignment
failure error (keeping an already recorded error). -/
def reassignDepartedTask (now : Int) (deliver : Nat → DeliveryOutcome)
    (clients : List ClientRecord) (p : PendingMapReduce) (taskId : String) :
    PendingMapReduce × List ClientRecord :=
  match p.tasks.find? (fun t => t.taskId = taskId) with
  | none => (p, clients)
  | some t =>
      let out := dispatchMapReduceTask now deliver clients p.nextClientIndex t
      match out.dispatched with
      | some (t2, nci) =>
          ({ p with tasks := updateFirstTask p.tasks taskId t2, nextClientIndex := nci },
           out.clients)
      | none =>
          let failed :=
            { t with error := some (t.error.getD "Failed to reassign after client departure"),
                     completedAt := some now }
          ({ p with tasks := updateFirstTask p.tasks taskId failed }, out.clients)

/-- One object of the audio bucket. -/
structure AudioObject where
  data : List Nat
  contentType : String
  uploaded : Int
deriving DecidableEq

/-- Lookup in an association list keyed by strings (Map.get). -/
def lookupPending {α : Type} (m : List (String × α)) (k : String) : Option α :=
  (m.find? (fun e => e.1 = k)).map (fun e => e.2)

/-- Map.delete on an association list. -/
def removePending {α : Type} (m : List (String × α)) (k : String) : List (String × α) :=
  m.filter (fun e => e.1 != k)

/-- Map.set on an association list: overwrite in place or append. -/
def setPending {α : Type} (m : List (String × α)) (k : String) (v : α) : List (String × α) :=
  if m.any (fun e => e.1 = k) then m.map (fun e => if e.1 = k then (k, v) else e)
  else m ++ [(k, v)]

/-- Nullish coalescing on options. -/
def orElseOpt {α : Type} (a b : Option α) : Option α :=
  match a with
  | some v => some v
  | none => b

/-- The process-wide hub state: the registry, the KV store with its alarm
and reported database size, the audio bucket, and the pending coordinator
tables. -/
structure HubState where
  clients : List ClientRecord
  storage : List (String × KVEntry)
  databaseSize : Nat
  alarm : Option Int
  bucket : List (String × AudioObject)
  pendingBenchmarks : List (String × PendingBenchmark)
  pendingMapReduces : List (String × PendingMapReduce)

/-- What one runCommand call returns to its caller: a JSON response, an
immediately resolved coordinator summary, or a handle to a summary the
returned promise yields later (awaitedBenchmark / awaitedMapReduce). -/
inductive CommandReply where
  | json (v : JsonValue) : CommandReply
  | benchmarkSummary (s : BenchmarkSummary) : CommandReply
  | mapReduceSummary (s : MapReduceSummary) : CommandReply
  | awaitedBenchmark (requestId : String) : CommandReply
  | awaitedMapReduce (requestId : String) : CommandReply

/-- The full outcome of one runCommand call: the reply (none models the
JavaScript undefined of a body that returns nothing), the hub state
afterwards, and the coordinator summaries resolved during the call. -/
structure RunOutcome where
  reply : Option CommandReply
  state : HubState
  resolvedBenchmarks : List BenchmarkSummary
  resolvedMapReduces : List MapReduceSummary

/-- A pure JSON reply leaving the given state. -/
def jsonReply (st : HubState) (v : JsonValue) : RunOutcome :=
  { reply := some (.json v), state := st, resolvedBenchmarks := [], resolvedMapReduces := [] }

/-- A response object carrying a command tag and an error. -/
def errObj (command error : String) : JsonValue :=
  .obj [("command", .str command), ("error", .str error)]

/-- A response object carrying a command tag, an error and an example. -/
def errObjEx (command error ex : String) : JsonValue :=
  .obj [("command", .str command), ("error", .str error), ("example", .str ex)]

/-- The hub's command list. -/
def hubCommands : List String :=
  ["help", "storage", "put", "get", "delete", "keys", "expire", "ttl", "peers",
   "whoami", "benchmark", "broadcast", "audio", "mapreduce"]

/-- HubApi.handleBenchmarkDeparture over the pending benchmark table:
every expected set drops the departing clientId, and a pending whose set
drains by this very deletion resolves (and leaves the table). -/
def benchmarksAfterDeparture (now : Int) (clientId : String)
    (m : List (String × PendingBenchmark)) :
    List (String × PendingBenchmark) × List BenchmarkSummary :=
  m.foldr
    (fun e acc =>
      let hadIt := e.2.expected.contains clientId
      let p := benchmarkDeparture clientId e.2
      if hadIt ∧ p.expected.length = 0 then (acc.1, resolveBenchmark now none p :: acc.2)
      else ((e.1, p) :: acc.1, acc.2))
    ([], [])

/-- HubApi.removeClient at the hub level: splice the record owning the
handle out of the registry, notify every pending benchmark (possibly
resolving some) and clear map-reduce assignments held by the departing
client.  The client-left broadcast to the remaining clients and the
deferred map-reduce re-dispatch are delivery effects not replayed here. -/
def removeClientById (now : Int) (st : HubState) (h : Nat) :
    HubState × List BenchmarkSummary :=
  match st.clients.find? (fun c => c.handle = h) with
  | none => (st, [])
  | some record =>
      let clients := removeByHandle st.clients h
      let bres := benchmarksAfterDeparture now record.info.id st.pendingBenchmarks
      let mrs := st.pendingMapReduces.map
        (fun e => (e.1, mapReduceDeparture record.info.id e.2))
      ({ st with clients := clients, pendingBenchmarks := bres.1,
                 pendingMapReduces := mrs },
       bres.2)

/-- The broadcast verb's effect at the hub level: deliver to every snapshot
entry, evicting dead recipients through the full removeClient cascade, and
return the post-delivery registry size. -/
def broadcastWithCascade (now : Int) (deliver : Nat → DeliveryOutcome) (st : HubState) :
    Nat × HubState × List BenchmarkSummary :=
  if st.clients.isEmpty then (0, st, [])
  else
    let res := st.clients.foldl
      (fun (acc : HubState × List BenchmarkSummary) c =>
        if deliver c.handle = .deadError then
          let r := removeClientById now acc.1 c.handle
          (r.1, acc.2 ++ r.2)
        else acc)
      (st, [])
    (res.1.clients.length, res.1, res.2)

/-- Whether the first list is a leading segment of the second. -/
def leadingMatch : List Char → List Char → Bool
  | [], _ => true
  | _ :: _, [] => false
  | a :: as, b :: bs => a = b && leadingMatch as bs

/-- Whether the first list occurs contiguously in the second. -/
def occursIn (sub : List Char) : List Char → Bool
  | [] => sub.isEmpty
  | c :: rest => leadingMatch sub (c :: rest) || occursIn sub rest

/-- Substring containment (String.includes). -/
def containsSubstring (s sub : String) : Bool :=
  occursIn sub.data s.data

/-- The benchmark option regex: a token matching (word chars)=(word chars,
dots or dashes), split into lowercased key and raw value. -/
def benchParseOption (token : String) : Option (String × String) :=
  match splitEq token.data with
  | none => none
  | some (pre, post) =>
      if ¬ pre.isEmpty ∧ pre.all isWordChar ∧ ¬ post.isEmpty ∧
          post.all (fun c => isWordChar c ∨ c = '.' ∨ c = '-') then
        some (lowerString (String.mk pre), String.mk post)
      else none

/-- The benchmark argument loop: key=value tokens set timeout/timeoutms and
iterations/loops when they parse as positive integers; a bare digit token
sets iterations; tokens containing "report" are skipped.  Defaults are
50000 iterations and 5000 ms. -/
def benchmarkOptions (tokens : List String) : Nat × Nat :=
  tokens.foldl
    (fun acc token =>
      if token = "" ∨ containsSubstring token "report" then acc
      else
        match benchParseOption token with
        | some kv =>
            if kv.1 = "timeout" ∨ kv.1 = "timeoutms" then
              match parseIntJs kv.2 with
              | some n => if 0 < n then (acc.1, n.toNat) else acc
              | none => acc
            else if kv.1 = "iterations" ∨ kv.1 = "loops" then
              match parseIntJs kv.2 with
              | some n => if 0 < n then (n.toNat, acc.2) else acc
              | none => acc
            else acc
        | none =>
            if ¬ token.data.isEmpty ∧ token.data.all Char.isDigit then
              match parseIntJs token with
              | some n => if 0 < n then (n.toNat, acc.2) else acc
              | none => acc
            else acc)
    (50000, 5000)

/-- The token loop of HubApi.startMapReduce: a bare token supplies the
encoded tasks while none is recorded (an empty recorded value is falsy and
is overwritten); tasks=/data=/work= set them unconditionally; every other
key=value lands in the options map, last value winning. -/
def mapReduceStartArgs (tokens : List String) : Option String × List (String × String) :=
  tokens.foldl
    (fun acc token =>
      if token = "" then acc
      else
        match splitEq token.data with
        | none => if jsFalsyStr acc.1 then (some token, acc.2) else acc
        | some (pre, post) =>
            let key := lowerString (String.mk pre)
            let value := String.mk post
            if ["tasks", "data", "work"].contains key then (some value, acc.2)
            else (acc.1, setPending acc.2 key value))
    (none, [])

/-- JavaScript atob on the upload path: strict standard-alphabet base64,
padding optional unless the length is 1 mod 4. -/
def atobDecode (s : String) : Option (List Nat) :=
  let cs := s.data
  let r := cs.length % 4
  if r = 1 then none
  else base64DecodeGroups false (if r = 0 then cs else cs ++ List.replicate (4 - r) '=')

/-- Suffix test (String.endsWith). -/
def strEndsWith (s suffix : String) : Bool :=
  leadingMatch suffix.data.reverse s.data.reverse

/-- Content-type inference of the audio upload branch of runCommand. -/
def audioContentType (filename : String) : String :=
  if strEndsWith filename ".mp3" then "audio/mpeg"
  else if strEndsWith filename ".wav" then "audio/wav"
  else if strEndsWith filename ".ogg" then "audio/ogg"
  else "application/octet-stream"

/-- The canonical name of a reducer. -/
def reducerName : MapReduceReducer → String
  | .collect => "collect"
  | .sum => "sum"
  | .average => "average"
  | .concat => "concat"
  | .count => "count"
  | .merge => "merge"

/-- One result entry rendered as a response object (undefined fields are
omitted). -/
def resultEntryJson (e : MapReduceResultEntry) : JsonValue :=
  .obj ([("taskId", .str e.taskId)] ++
    (match e.assignedTo with | some a => [("assignedTo", .str a)] | none => []) ++
    [("attempts", .num (e.attempts : ℚ))] ++
    (match e.durationMs with | some d => [("durationMs", .num (d : ℚ))] | none => []) ++
    (match e.result with | some r => [("result", r)] | none => []) ++
    (match e.error with | some s => [("error", .str s)] | none => []) ++
    (match e.metadata with | some m => [("metadata", m)] | none => []))

/-- HubApi.handleMapReduceStatus for a found pending map-reduce. -/
def mapReduceStatusJson (p : PendingMapReduce) : JsonValue :=
  .obj [("command", .str "mapreduce-status"), ("requestId", .str p.requestId),
        ("active", .bool true), ("reducer", .str (reducerName p.reducer)),
        ("requesterId", match p.requesterId with | some r => .str r | none => .null),
        ("startedAt", .time p.createdAt),
        ("timeoutAt", .time (p.createdAt + (p.timeoutMs : Int))),
        ("totalTasks", .num (p.tasks.length : ℚ)),
        ("completedTasks", .num ((p.tasks.filter (fun t => truthyTime t.completedAt)).length : ℚ)),
        ("failedTasks", .num ((p.tasks.filter (fun t => errTruthy t.error)).length : ℚ)),
        ("results", .arr (p.tasks.map (fun t => resultEntryJson (taskResultEntry t))))]

/-- Whether a report response was accepted (used to mirror the control flow
in which the completion check only runs on the accepted path). -/
def replyAccepted (v : JsonValue) : Bool :=
  match v with
  | .obj fs =>
      (match getField fs "accepted" with
       | some (.bool b) => b
       | _ => false)
  | _ => false

/-- HubApi.handleMapReduceCommand: dispatch on the subcommand; report,
status and cancel look the pending map-reduce up by requestId; any other
token list (with start/run stripped when present) starts a map-reduce.
Starting parses the encoded tasks, chooses reducer and timeout, stores the
pending state, dispatches every task and applies the completion check: the
returned promise resolves immediately when every task already completed
(for example when every dispatch failed), and otherwise stays pending until
reports, cancellation or the timer resolve it. -/
def handleMapReduceCommand (now : Int) (deliver : Nat → DeliveryOutcome)
    (freshRequestId : String) (tokens : List String) (clientId : Option String)
    (st : HubState) : RunOutcome :=
  if tokens.isEmpty then
    jsonReply st (.obj [("command", .str "mapreduce"),
      ("error", .str "Usage: mapreduce <start|report|status|cancel> ..."),
      ("examples", .arr [.str "mapreduce start tasks=<base64-json>",
                         .str "mapreduce report <requestId> <taskId> <base64-result>",
                         .str "mapreduce status <requestId>"])])
  else
    let sub := lowerString (tokens.headD "")
    if sub = "report" then
      let rtokens := tokens.drop 1
      if rtokens.length < 2 then jsonReply st mapReduceReportUsage
      else
        let requestId := rtokens.headD ""
        match lookupPending st.pendingMapReduces requestId with
        | none =>
            jsonReply st (.obj [("command", .str "mapreduce-report"),
              ("requestId", .str requestId), ("taskId", .str ((rtokens.drop 1).headD "")),
              ("accepted", .bool false), ("error", .str "Unknown mapreduce request")])
        | some p =>
            let r := handleMapReduceReport now clientId rtokens p
            let pms := setPending st.pendingMapReduces requestId r.1
            let st2 := { st with pendingMapReduces := pms }
            if replyAccepted r.2 ∧ mapReduceAllDone r.1 then
              let s := resolveMapReduce now none r.1
              let pms2 := removePending st2.pendingMapReduces requestId
              { reply := some (.json r.2),
                state := { st2 with pendingMapReduces := pms2 },
                resolvedBenchmarks := [], resolvedMapReduces := [s] }
            else
              { reply := some (.json r.2), state := st2,
                resolvedBenchmarks := [], resolvedMapReduces := [] }
    else if sub = "status" then
      let stokens := tokens.drop 1
      if stokens.length < 1 then
        jsonReply st (errObj "mapreduce-status" "Usage: mapreduce status <requestId>")
      else
        let requestId := stokens.headD ""
        match lookupPending st.pendingMapReduces requestId with
        | none =>
            jsonReply st (.obj [("command", .str "mapreduce-status"),
              ("requestId", .str requestId), ("active", .bool false)])
        | some p => jsonReply st (mapReduceStatusJson p)
    else if sub = "cancel" then
      let ctokens := tokens.drop 1
      if ctokens.length < 1 then
        jsonReply st (errObj "mapreduce-cancel" "Usage: mapreduce cancel <requestId>")
      else
        let requestId := ctokens.headD ""
        match lookupPending st.pendingMapReduces requestId with
        | none =>
            jsonReply st (.obj [("command", .str "mapreduce-cancel"),
              ("requestId", .str requestId), ("cancelled", .bool false),
              ("error", .str "Unknown mapreduce request")])
        | some p =>
            let r := handleMapReduceCancelCore now clientId p
            let pms := removePending st.pendingMapReduces requestId
            { reply := some (.json r.2),
              state := { st with pendingMapReduces := pms },
              resolvedBenchmarks := [], resolvedMapReduces := [r.1] }
    else
      let startTokens := if sub = "start" ∨ sub = "run" then tokens.drop 1 else tokens
      let participants := st.clients
      if participants.isEmpty then
        jsonReply st (errObj "mapreduce" "No connected clients available for map/reduce")
      else
        let args := mapReduceStartArgs startTokens
        if jsFalsyStr args.1 then
          jsonReply st (errObj "mapreduce" "No tasks supplied. Use tasks=<json-or-base64>")
        else
          let taskDescriptors := normalizeMapReduceTasks (parseMaybeJson (args.1.getD ""))
          if taskDescriptors.isEmpty then
            jsonReply st (errObj "mapreduce" "No tasks could be parsed from the provided payload")
          else
            let reducer := normalizeReducer
              (orElseOpt (lookupPending args.2 "reducer") (lookupPending args.2 "reduce"))
            let timeoutMs := parsePositiveInt
              (orElseOpt (lookupPending args.2 "timeout") (lookupPending args.2 "timeoutms")) 15000
            let started := startMapReduceCore now deliver freshRequestId clientId reducer
              timeoutMs taskDescriptors participants
            let p := started.pending
            let pms := setPending st.pendingMapReduces freshRequestId p
            let st2 := { st with clients := started.clients, pendingMapReduces := pms }
            if mapReduceAllDone p then
              let s := resolveMapReduce now none p
              let pms2 := removePending st2.pendingMapReduces freshRequestId
              { reply := some (.mapReduceSummary s),
                state := { st2 with pendingMapReduces := pms2 },
                resolvedBenchmarks := [], resolvedMapReduces := [s] }
            else
              { reply := some (.awaitedMapReduce freshRequestId), state := st2,
                resolvedBenchmarks := [], resolvedMapReduces := [] }

/-- The help case of runCommand. -/
def runHelp (st : HubState) : RunOutcome :=
  jsonReply st (.obj [("command", .str "help"), ("data", .arr (hubCommands.map .str))])

/-- The storage case of runCommand (storage.list is bounded at 1000 keys;
databaseSize is read from the SQLite backend). -/
def runStorage (st : HubState) : RunOutcome :=
  let keys := (st.storage.take 1000).map (fun e => e.1)
  jsonReply st (.obj [("command", .str "storage"),
    ("data", .obj [("keys", .arr (keys.map .str)), ("count", .num (keys.length : ℚ)),
                   ("databaseSize", .num (st.databaseSize : ℚ))])])

/-- The put case of runCommand.  A truthy parsed TTL stores an absolute
expiry and lowers the alarm. -/
def runPut (now : Int) (parts : List String) (st : HubState) : RunOutcome :=
  if parts.length < 3 then
    jsonReply st (errObjEx "put" "Usage: put <key> <value> [ttl_seconds]" "put mykey myvalue 3600")
  else
    let key := parts.getD 1 ""
    let value := parts.getD 2 ""
    let ttlSeconds : Option Int :=
      if 3 < parts.length then parseIntJs (parts.getD 3 "") else none
    let ttlTruthy := match ttlSeconds with | some n => n != 0 | none => false
    let expiry := now + ttlSeconds.getD 0 * 1000
    let storage := kvPut st.storage key
      { value := value, expiresAt := if ttlTruthy then some expiry else none }
    let alarm := if ttlTruthy then scheduleAlarmForExpiration st.alarm expiry else st.alarm
    jsonReply { st with storage := storage, alarm := alarm }
      (.obj [("command", .str "put"), ("success", .bool true), ("key", .str key),
             ("value", .str value),
             ("ttl", match ttlSeconds with | some n => .num (n : ℚ) | none => .null),
             ("expiresAt", if ttlTruthy then .time expiry else .null),
             ("message", .str (if ttlTruthy then
                "Key expires in " ++ toString (ttlSeconds.getD 0) ++ " seconds"
              else "Key has no expiration"))])

/-- The get case of runCommand: a stored entry whose expiresAt is truthy and
strictly past is deleted and reported as expired; otherwise its value is
returned. -/
def runGet (now : Int) (parts : List String) (st : HubState) : RunOutcome :=
  if parts.length < 2 then
    jsonReply st (errObjEx "get" "Usage: get <key>" "get mykey")
  else
    let getKey := parts.getD 1 ""
    match kvGet st.storage getKey with
    | none =>
        jsonReply st (.obj [("command", .str "get"), ("key", .str getKey), ("value", .null)])
    | some data =>
        if truthyTime data.expiresAt ∧ now > data.expiresAt.getD 0 then
          jsonReply { st with storage := kvDelete st.storage getKey }
            (.obj [("command", .str "get"), ("key", .str getKey), ("value", .null),
                   ("expired", .bool true)])
        else
          jsonReply st (.obj [("command", .str "get"), ("key", .str getKey),
            ("value", .str data.value)])

/-- The delete case of runCommand. -/
def runDelete (parts : List String) (st : HubState) : RunOutcome :=
  if parts.length < 2 then
    jsonReply st (errObjEx "delete" "Usage: delete <key>" "delete mykey")
  else
    let deleteKey := parts.getD 1 ""
    let deleted := st.storage.any (fun e => e.1 = deleteKey)
    jsonReply { st with storage := kvDelete st.storage deleteKey }
      (.obj [("command", .str "delete"), ("key", .str deleteKey), ("deleted", .bool deleted)])

/-- The keys case of runCommand. -/
def runKeys (st : HubState) : RunOutcome :=
  let keys := (st.storage.take 1000).map (fun e => e.1)
  jsonReply st (.obj [("command", .str "keys"), ("keys", .arr (keys.map .str)),
    ("count", .num (keys.length : ℚ))])

/-- The expire case of runCommand. -/
def runExpire (now : Int) (parts : List String) (st : HubState) : RunOutcome :=
  if parts.length < 3 then
    jsonReply st (errObjEx "expire" "Usage: expire <key> <seconds>" "expire mykey 3600")
  else
    let expireKey := parts.getD 1 ""
    match parseIntJs (parts.getD 2 "") with
    | none => jsonReply st (errObj "expire" "TTL must be a positive number")
    | some n =>
        if n ≤ 0 then jsonReply st (errObj "expire" "TTL must be a positive number")
        else
          match kvGet st.storage expireKey with
          | none =>
              jsonReply st (.obj [("command", .str "expire"), ("key", .str expireKey),
                ("success", .bool false), ("error", .str "Key not found")])
          | some data =>
              let newExp := now + n * 1000
              let storage := kvPut st.storage expireKey { data with expiresAt := some newExp }
              let alarm := scheduleAlarmForExpiration st.alarm newExp
              jsonReply { st with storage := storage, alarm := alarm }
                (.obj [("command", .str "expire"), ("key", .str expireKey),
                       ("ttl", .num (n : ℚ)), ("success", .bool true),
                       ("expiresAt", .time newExp),
                       ("message", .str ("Key will expire in " ++ toString n ++ " seconds"))])

/-- The ttl case of runCommand (with the same lazy-expiry rule as get,
except that the comparison is on the ceiling of the remaining seconds). -/
def runTtl (now : Int) (parts : List String) (st : HubState) : RunOutcome :=
  if parts.length < 2 then
    jsonReply st (errObjEx "ttl" "Usage: ttl <key>" "ttl mykey")
  else
    let ttlKey := parts.getD 1 ""
    match kvGet st.storage ttlKey with
    | none =>
        jsonReply st (.obj [("command", .str "ttl"), ("key", .str ttlKey), ("ttl", .num (-2))])
    | some data =>
        if ¬ truthyTime data.expiresAt then
          jsonReply st (.obj [("command", .str "ttl"), ("key", .str ttlKey), ("ttl", .num (-1)),
            ("message", .str "Key has no expiration set")])
        else
          let remainingSeconds := ceilDiv (data.expiresAt.getD 0 - now) 1000
          if remainingSeconds ≤ 0 then
            jsonReply { st with storage := kvDelete st.storage ttlKey }
              (.obj [("command", .str "ttl"), ("key", .str ttlKey), ("ttl", .num (-2)),
                     ("message", .str "Key has expired and was deleted")])
          else
            jsonReply st (.obj [("command", .str "ttl"), ("key", .str ttlKey),
              ("ttl", .num (remainingSeconds : ℚ)),
              ("message", .str ("Key expires in " ++ toString remainingSeconds ++ " seconds"))])

/-- The peers case of runCommand. -/
def runPeers (clientId : Option String) (st : HubState) : RunOutcome :=
  let peerInfo := st.clients.map (fun c => JsonValue.obj
    [("id", .str c.info.id), ("joinedAt", .str c.info.joinedAt),
     ("vector", .arr (c.info.vector.map .num)),
     ("isMe", .bool (decide (clientId = some c.info.id)))])
  jsonReply st (.obj ([("command", .str "peers"), ("count", .num (st.clients.length : ℚ)),
    ("peers", .arr peerInfo)] ++
    (match clientId with | some c => [("yourId", .str c)] | none => [])))

/-- The whoami case of runCommand. -/
def runWhoami (now : Int) (clientId : Option String) (st : HubState) : RunOutcome :=
  let clientInfo : Option ClientRecord := match clientId with
    | some cid => st.clients.find? (fun c => c.info.id = cid)
    | none => none
  jsonReply st (.obj ([("command", .str "whoami"),
    ("clientId", .str (if jsFalsyStr clientId then "unknown" else clientId.getD "")),
    ("message", .str "You are connected to the Brain Hub"),
    ("serverTime", .time now),
    ("totalPeers", .num (st.clients.length : ℚ)),
    ("storageKeys", .num ((st.storage.take 1000).length : ℚ)),
    ("uptime", .str "Running on Cloudflare Durable Objects")] ++
    (match clientInfo with
     | some c => [("joinedAt", .str c.info.joinedAt),
                  ("vector", .arr (c.info.vector.map .num))]
     | none => [])))

/-- The benchmark case of runCommand: the report subcommand records a result
into the pending benchmark (resolving it when the expected set drains); any
other form starts a benchmark, dispatching the request to a snapshot, with
dispatch failures removing the recipient from the expected set and evicting
it through the full removeClient cascade. -/
def runBenchmark (now : Int) (deliver : Nat → DeliveryOutcome) (freshRequestId : String)
    (parts : List String) (clientId : Option String) (st : HubState) : RunOutcome :=
  let sub := lowerString (parts.getD 1 "")
  if sub = "report" then
    if parts.length < 4 then
      jsonReply st (errObj "benchmark-report"
        "Usage: benchmark report <requestId> <durationMs> [details-json]")
    else
      let requestId := parts.getD 2 ""
      let parsedDuration := parseFloatJs (parts.getD 3 "")
      match parsedDuration with
      | none =>
          jsonReply st (.obj [("command", .str "benchmark-report"),
            ("requestId", .str requestId),
            ("error", .str "durationMs must be a non-negative number")])
      | some d =>
          if d < 0 then
            jsonReply st (.obj [("command", .str "benchmark-report"),
              ("requestId", .str requestId),
              ("error", .str "durationMs must be a non-negative number")])
          else
            let rawDetails := String.intercalate " " (parts.drop 4)
            let details : Option JsonValue :=
              if rawDetails = "" then none
              else
                match jsonParse rawDetails with
                | some v => some v
                | none => some (.str rawDetails)
            match lookupPending st.pendingBenchmarks requestId with
            | none =>
                jsonReply st (.obj [("command", .str "benchmark-report"),
                  ("requestId", .str requestId), ("accepted", .bool false),
                  ("error", .str "Unknown benchmark request")])
            | some pending =>
                let p2 := applyBenchmarkReport now clientId d details pending
                if p2.expected.length = 0 then
                  let pbs := removePending st.pendingBenchmarks requestId
                  { reply := some (.json (benchmarkReportResponse requestId)),
                    state := { st with pendingBenchmarks := pbs },
                    resolvedBenchmarks := [resolveBenchmark now none p2],
                    resolvedMapReduces := [] }
                else
                  let pbs := setPending st.pendingBenchmarks requestId p2
                  { reply := some (.json (benchmarkReportResponse requestId)),
                    state := { st with pendingBenchmarks := pbs },
                    resolvedBenchmarks := [], resolvedMapReduces := [] }
  else
    let tokens := (parts.drop 1).filter (fun t => t ≠ "")
    let opts := benchmarkOptions tokens
    let participants := st.clients
    if participants.isEmpty then
      jsonReply st (errObj "benchmark" "No connected clients available for benchmarking")
    else
      let p0 := initBenchmark freshRequestId clientId now opts.1 opts.2 participants
      let pbs0 := setPending st.pendingBenchmarks freshRequestId p0
      let st0 := { st with pendingBenchmarks := pbs0 }
      let disp := participants.foldl
        (fun (acc : HubState × List BenchmarkSummary) c =>
          if deliver c.handle = .ok then acc
          else
            let pbs :=
              match lookupPending acc.1.pendingBenchmarks freshRequestId with
              | some p => setPending acc.1.pendingBenchmarks freshRequestId
                  (benchmarkDeparture c.info.id p)
              | none => acc.1.pendingBenchmarks
            let r := removeClientById now { acc.1 with pendingBenchmarks := pbs } c.handle
            (r.1, acc.2 ++ r.2))
        (st0, [])
      match lookupPending disp.1.pendingBenchmarks freshRequestId with
      | some p =>
          if p.expected.length = 0 then
            let s := resolveBenchmark now
              (some "Benchmark request could not reach any clients") p
            let pbs := removePending disp.1.pendingBenchmarks freshRequestId
            { reply := some (.benchmarkSummary s),
              state := { disp.1 with pendingBenchmarks := pbs },
              resolvedBenchmarks := disp.2 ++ [s], resolvedMapReduces := [] }
          else
            { reply := some (.awaitedBenchmark freshRequestId), state := disp.1,
              resolvedBenchmarks := disp.2, resolvedMapReduces := [] }
      | none =>
          { reply := some (.awaitedBenchmark freshRequestId), state := disp.1,
            resolvedBenchmarks := disp.2, resolvedMapReduces := [] }

/-- The broadcast case of runCommand. -/
def runBroadcast (now : Int) (deliver : Nat → DeliveryOutcome) (parts : List String)
    (clientId : Option String) (st : HubState) : RunOutcome :=
  if parts.length < 2 then
    jsonReply st (errObjEx "broadcast" "Usage: broadcast <message>" "broadcast Hello everyone!")
  else
    let message := String.intercalate " " (parts.drop 1)
    let b := broadcastWithCascade now deliver st
    { reply := some (.json (.obj ([("command", .str "broadcast"),
        ("message", .str message), ("recipients", .num (b.1 : ℚ))] ++
        (match clientId with | some c => [("from", .str c)] | none => [])))),
      state := b.2.1, resolvedBenchmarks := b.2.2, resolvedMapReduces := [] }

/-- The audio case of runCommand.  The source's three action branches all
return, but a subverb matching none of them reaches the end of the case
body without a return and execution falls through into the mapreduce case
(JavaScript switch semantics), which handles parts.slice(1). -/
def runAudio (now : Int) (deliver : Nat → DeliveryOutcome) (freshRequestId : String)
    (parts : List String) (clientId : Option String) (st : HubState) : RunOutcome :=
  if parts.length < 2 then
    jsonReply st (errObjEx "audio" "Usage: audio <list|get> [filename]" "audio list")
  else
    let audioAction := parts.getD 1 ""
    if audioAction = "list" then
      let files := st.bucket.map (fun e => JsonValue.obj
        [("name", .str e.1), ("size", .num (e.2.data.length : ℚ)),
         ("uploaded", .time e.2.uploaded)])
      jsonReply st (.obj [("command", .str "audio"), ("action", .str "list"),
        ("files", .arr files), ("count", .num (st.bucket.length : ℚ))])
    else if audioAction = "get" then
      if parts.length < 3 then
        jsonReply st (errObjEx "audio" "Usage: audio get <filename>" "audio get song.mp3")
      else
        let filename := parts.getD 2 ""
        match lookupPending st.bucket filename with
        | none =>
            jsonReply st (.obj [("command", .str "audio"), ("action", .str "get"),
              ("filename", .str filename), ("error", .str "Audio file not found")])
        | some obj =>
            jsonReply st (.obj [("command", .str "audio"), ("action", .str "get"),
              ("filename", .str filename), ("key", .str filename),
              ("size", .num (obj.data.length : ℚ)), ("contentType", .str obj.contentType),
              ("exists", .bool true),
              ("message", .str "Audio file found. Use a media player to stream from R2.")])
    else if audioAction = "upload" then
      if parts.length < 4 then
        jsonReply st (errObjEx "audio" "Usage: audio upload <filename> <base64data>"
          "audio upload song.mp3 <base64-encoded-file-data>")
      else
        let uploadFilename := parts.getD 2 ""
        let base64Data := String.intercalate " " (parts.drop 3)
        match atobDecode base64Data with
        | none =>
            jsonReply st (errObj "audio"
              "Failed to upload audio file: InvalidCharacterError")
        | some fileData =>
            let bucket := setPending st.bucket uploadFilename
              { data := fileData, contentType := audioContentType uploadFilename,
                uploaded := now }
            jsonReply { st with bucket := bucket }
              (.obj [("command", .str "audio"), ("action", .str "upload"),
                     ("filename", .str uploadFilename),
                     ("size", .num (fileData.length : ℚ)), ("success", .bool true)])
    else
      handleMapReduceCommand now deliver freshRequestId (parts.drop 1) clientId st

/-- HubApi.runCommand: tokenize the command, lower-case the verb and
dispatch on it to the case bodies above.  freshRequestId supplies the random
requestId of a coordinator started by this call; deliver supplies the
delivery outcomes of this call's messages by handle. -/
def runCommand (now : Int) (deliver : Nat → DeliveryOutcome) (freshRequestId : String)
    (command : String) (clientId : Option String) (st : HubState) : RunOutcome :=
  let parts := tokenizeCommand command
  let cmd := lowerString (parts.headD "")
  if cmd = "help" then runHelp st
  else if cmd = "storage" then runStorage st
  else if cmd = "put" then runPut now parts st
  else if cmd = "get" then runGet now parts st
  else if cmd = "delete" then runDelete parts st
  else if cmd = "keys" then runKeys st
  else if cmd = "expire" then runExpire now parts st
  else if cmd = "ttl" then runTtl now parts st
  else if cmd = "peers" then runPeers clientId st
  else if cmd = "whoami" then runWhoami now clientId st
  else if cmd = "benchmark" then runBenchmark now deliver freshRequestId parts clientId st
  else if cmd = "broadcast" then runBroadcast now deliver parts clientId st
  else if cmd = "audio" then runAudio now deliver freshRequestId parts clientId st
  else if cmd = "mapreduce" then
    handleMapReduceCommand now deliver freshRequestId (parts.drop 1) clientId st
  else
    jsonReply st (.obj [("command", .str cmd),
      ("error", .str ("Unknown command: " ++ cmd)),
      ("available", .arr (hubCommands.map .str))])
/-- A hub state with nothing registered or stored. -/
def emptyState : HubState :=
  { clients := [], storage := [], databaseSize := 0, alarm := none, bucket := [],
    pendingBenchmarks := [], pendingMapReduces := [] }

/-- A single registered client named A. -/
def clientA : ClientRecord :=
  { handle := 0, info := { id := "A", joinedAt := "t0", vector := [] } }

/-- A one-client registry. -/
def oneClient : List ClientRecord := [clientA]

/-- A map-reduce run of one task dispatched successfully to the only client
(the state the coordinator is in when the timeout fires before any report). -/
def oneTaskRun : StartedMapReduce :=
  startMapReduceCore 10 (fun _ => .ok) "req-1" (some "A") .collect 500
    [{ taskId := "task-1", payload := .null, metadata := none }] oneClient

/-- The pending benchmark stored when a benchmark is dispatched to the
one-client registry. -/
def benchP0 : PendingBenchmark := initBenchmark "r" none 0 50000 5000 oneClient

/-- benchP0 after a report from the unregistered client B followed by a
report from A (the snapshot member). -/
def benchP2 : PendingBenchmark :=
  applyBenchmarkReport 2 (some "A") 9 none (applyBenchmarkReport 1 (some "B") 7 none benchP0)

/-- A pending map-reduce with one uncompleted task assigned to A. -/
def oneOpenTask : PendingMapReduce :=
  { requestId := "req-1", requesterId := none, createdAt := 0, timeoutMs := 500,
    reducer := .count,
    tasks := [{ taskId := "t1", payload := .null, metadata := none, assignedTo := some "A",
                assignedAt := some 5, attempts := 1, completedAt := none, result := none,
                error := none, resultMetadata := none }],
    nextClientIndex := 0 }

/-- The invariant of a pending benchmark under which reports preserve the
participant count: the expected set is duplicate-free and disjoint from the
recorded results (the disjointness the specification states as an invariant
of Pending Benchmark). -/
def BenchInv (p : PendingBenchmark) : Prop :=
  p.expected.Nodup ∧ ∀ r ∈ p.results, r.clientId ∉ p.expected

/-- A KV state holding one entry that expires at time 100. -/
def boundaryState : HubState :=
  { clients := [], storage := [("foo", { value := "bar", expiresAt := some 100 })],
    databaseSize := 0, alarm := none, bucket := [],
    pendingBenchmarks := [], pendingMapReduces := [] }

/-- A freshly initialised pending benchmark for request id "r" over the
one-client registry. -/
def benchQ : PendingBenchmark := initBenchmark "r" none 0 50000 5000 oneClient

/-- A hub state holding benchQ as the only pending benchmark. -/
def benchReportState : HubState :=
  { emptyState with pendingBenchmarks := [("r", benchQ)] }

theorem parseMaybeJson_null : parseMaybeJson "null" = JsonValue.null := rfl

theorem forceComplete_all_completed (now : Int) (hnow : now ≠ 0)
    (tasks : List MapReduceTaskState) :
    ∀ t ∈ forceCompleteTasks now tasks, truthyTime t.completedAt = true := by
  intro t ht
  simp only [forceCompleteTasks, List.mem_map] at ht
  obtain ⟨x, _, rfl⟩ := ht
  by_cases h : truthyTime x.completedAt = true
  · simp [h]
  · simp only [h]
    simp at h
    simp [h, truthyTime, hnow]

theorem filter_length_of_all {α : Type} (p : α → Bool) (l : List α)
    (h : ∀ x ∈ l, p x = true) : (l.filter p).length = l.length := by
  rw [List.filter_eq_self.mpr h]

theorem zip_map_self {α β : Type} (f : α → β) (l : List α) :
    l.zip (l.map f) = l.map (fun x => (x, f x)) := by
  induction l with
  | nil => rfl
  | cons a as ih => simp [ih]

theorem find?_updateFirstTask (tasks : List MapReduceTaskState) (taskId : String)
    (t t2 : MapReduceTaskState)
    (hfind : tasks.find? (fun x => x.taskId = taskId) = some t)
    (hid : t2.taskId = taskId) :
    (updateFirstTask tasks taskId t2).find? (fun x => x.taskId = taskId) = some t2 := by
  induction tasks with
  | nil => simp [List.find?] at hfind
  | cons a as ih =>
      by_cases h : a.taskId = taskId
      · simp [updateFirstTask, h, List.find?, hid]
      · simp only [updateFirstTask, if_neg h]
        rw [List.find?_cons_of_neg, ih]
        · rw [List.find?_cons_of_neg] at hfind
          · exact hfind
          · simp [h]
        · simp [h]

theorem mem_updateFirstTask (tasks : List MapReduceTaskState) (taskId : String)
    (t t2 : MapReduceTaskState)
    (hfind : tasks.find? (fun x => x.taskId = taskId) = some t) :
    t2 ∈ updateFirstTask tasks taskId t2 := by
  induction tasks with
  | nil => simp [List.find?] at hfind
  | cons a as ih =>
      by_cases h : a.taskId = taskId
      · simp [updateFirstTask, h]
      · simp only [updateFirstTask, if_neg h]
        rw [List.find?_cons_of_neg] at hfind
        · exact List.mem_cons_of_mem a (ih hfind)
        · simp [h]

theorem mem_successInputs {t : MapReduceTaskState} {tasks : List MapReduceTaskState}
    (hmem : t ∈ tasks) (hc : truthyTime t.completedAt = true)
    (he : errTruthy t.error = false) :
    t.result ∈ successInputs tasks := by
  simp only [successInputs, List.mem_map]
  refine ⟨t, ?_, rfl⟩
  rw [List.mem_filter]
  exact ⟨hmem, by simp [hc, he]⟩


theorem setOfIds_go (l : List ClientRecord) :
    ∀ (acc : List String), (∀ c ∈ l, c.info.id ∉ acc) →
      (l.map (fun c => c.info.id)).Nodup →
      l.foldl (fun a c => if a.contains c.info.id then a else a ++ [c.info.id]) acc =
        acc ++ l.map (fun c => c.info.id) := by
  induction l with
  | nil => intro acc _ _; simp
  | cons c rest ih =>
      intro acc hni hnd
      have hnotin : acc.contains c.info.id = false := by
        simpa using hni c (List.mem_cons_self c rest)
      simp only [List.foldl_cons, hnotin, Bool.false_eq_true, if_false]
      simp only [List.map_cons, List.nodup_cons] at hnd
      rw [ih (acc ++ [c.info.id]) ?_ hnd.2]
      · simp
      · intro x hx
        simp only [List.mem_append, List.mem_singleton]
        push_neg
        constructor
        · exact hni x (List.mem_cons_of_mem c hx)
        · intro heq
          exact hnd.1 (heq ▸ List.mem_map_of_mem (fun c => c.info.id) hx)

theorem setOfIds_eq_of_nodup (snapshot : List ClientRecord)
    (h : (snapshot.map (fun c => c.info.id)).Nodup) :
    setOfIds snapshot = snapshot.map (fun c => c.info.id) := by
  have := setOfIds_go snapshot [] (by simp) h
  simpa [setOfIds] using this

theorem filter_bne_length_of_nodup (l : List String) (a : String)
    (hn : l.Nodup) (hm : a ∈ l) :
    (l.filter (fun x => x != a)).length + 1 = l.length := by
  induction l with
  | nil => cases hm
  | cons b rest ih =>
      simp only [List.nodup_cons] at hn
      rcases List.mem_cons.mp hm with heq | hmem
      · subst heq
        have hrest : rest.filter (fun x => x != a) = rest := by
          apply List.filter_eq_self.mpr
          intro x hx
          simp only [bne_iff_ne, ne_eq, decide_not, decide_eq_true_eq]
          exact fun hxa => hn.1 (hxa ▸ hx)
        simp [List.filter_cons, hrest]
      · have hba : b ≠ a := fun h => hn.1 (h ▸ hmem)
        simp only [List.filter_cons]
        have hb : (b != a) = true := by simpa using hba
        rw [if_pos hb]
        simp only [List.length_cons]
        rw [← ih hn.2 hmem]

theorem applyBenchmarkReport_sum (now : Int) (clientId : Option String) (d : ℚ)
    (det : Option JsonValue) (p : PendingBenchmark)
    (hInv : BenchInv p) (hmem : clientId.getD "unknown" ∈ p.expected) :
    (applyBenchmarkReport now clientId d det p).results.length +
        (applyBenchmarkReport now clientId d det p).expected.length =
      p.results.length + p.expected.length ∧
    BenchInv (applyBenchmarkReport now clientId d det p) := by
  have hnot : p.results.any (fun r => r.clientId = clientId.getD "unknown") = false := by
    rw [List.any_eq_false]
    intro r hr
    simp only [decide_eq_true_eq]
    intro heq
    exact hInv.2 r hr (heq ▸ hmem)
  constructor
  · simp only [applyBenchmarkReport, hnot, Bool.false_eq_true, if_false]
    simp only [List.length_append, List.length_singleton]
    have := filter_bne_length_of_nodup p.expected (clientId.getD "unknown") hInv.1 hmem
    omega
  · constructor
    · simp only [applyBenchmarkReport]
      exact hInv.1.filter _
    · intro r hr
      simp only [applyBenchmarkReport, hnot, Bool.false_eq_true, if_false,
        List.mem_append, List.mem_singleton] at hr
      intro hmem2
      simp only [applyBenchmarkReport, List.mem_filter, bne_iff_ne, ne_eq, decide_not,
        decide_eq_true_eq] at hmem2
      rcases hr with hold | hnew
      · exact hInv.2 r hold hmem2.1
      · subst hnew
        simp at hmem2

theorem inExpectedReports_sum {p q : PendingBenchmark} (h : InExpectedReports p q) :
    BenchInv p →
    q.results.length + q.expected.length = p.results.length + p.expected.length := by
  induction h with
  | refl p => intro _; rfl
  | step now cid d det hmem htail ih =>
      intro hInv
      have hs := applyBenchmarkReport_sum now cid d det _ hInv hmem
      rw [ih hs.2, hs.1]

theorem runCommand_get_dispatch (now : Int) (deliver : Nat → DeliveryOutcome)
    (fresh command : String) (clientId : Option String) (st : HubState)
    (args : List String) (htok : tokenizeCommand command = "get" :: args) :
    runCommand now deliver fresh command clientId st = runGet now ("get" :: args) st := by
  unfold runCommand
  rw [htok]
  rfl

theorem runCommand_audio_dispatch (now : Int) (deliver : Nat → DeliveryOutcome)
    (fresh command : String) (clientId : Option String) (st : HubState)
    (args : List String) (htok : tokenizeCommand command = "audio" :: args) :
    runCommand now deliver fresh command clientId st =
      runAudio now deliver fresh ("audio" :: args) clientId st := by
  unfold runCommand
  rw [htok]
  rfl

theorem runCommand_benchmark_dispatch (now : Int) (deliver : Nat → DeliveryOutcome)
    (fresh command : String) (clientId : Option String) (st : HubState)
    (args : List String) (htok : tokenizeCommand command = "benchmark" :: args) :
    runCommand now deliver fresh command clientId st =
      runBenchmark now deliver fresh ("benchmark" :: args) clientId st := by
  unfold runCommand
  rw [htok]
  rfl

theorem broadcast_fold_no_dead (deliver : Nat → DeliveryOutcome)
    (snap : List ClientRecord) :
    ∀ init : List ClientRecord, (∀ c ∈ snap, deliver c.handle ≠ .deadError) →
      snap.foldl (fun acc c =>
        if deliver c.handle = .deadError then removeByHandle acc c.handle else acc) init = init := by
  induction snap with
  | nil => intro init _; rfl
  | cons c rest ih =>
      intro init h
      simp only [List.foldl_cons, if_neg (h c (List.mem_cons_self c rest))]
      exact ih init (fun x hx => h x (List.mem_cons_of_mem c hx))

theorem sumSq_comm (a b : List ℝ) :
    (((a.zip b).map (fun p => (p.1 - p.2) ^ 2)).sum : ℝ) =
      ((b.zip a).map (fun p => (p.1 - p.2) ^ 2)).sum := by
  induction a generalizing b with
  | nil => cases b <;> simp
  | cons x xs ih =>
      cases b with
      | nil => simp
      | cons y ys =>
          simp only [List.zip_cons_cons, List.map_cons, List.sum_cons, ih ys]
          ring_nf

theorem sumSq_self (a : List ℝ) :
    (((a.zip a).map (fun p => (p.1 - p.2) ^ 2)).sum : ℝ) = 0 := by
  induction a with
  | nil => simp
  | cons x xs ih => simp [ih]

/-- C6 (amended): distance is symmetric for all vectors, and distance of a
vector to itself is 0 for every non-empty vector; for the empty vector the
common length is 0 and distance returns positive infinity instead of 0. -/
theorem distance_symm_and_self :
    (∀ a b : List ℝ, distance a b = distance b a) ∧
    (∀ a : List ℝ, a ≠ [] → distance a a = 0) ∧
    distance ([] : List ℝ) [] = ⊤ := by
  refine ⟨?_, ?_, ?_⟩
  · intro a b
    unfold distance
    have hmin : a.length.min b.length = b.length.min a.length := Nat.min_comm _ _
    rw [hmin, sumSq_comm, abs_sub_comm]
  · intro a ha
    unfold distance
    rw [if_neg ?_]
    · rw [sumSq_self, Real.sqrt_zero]
      simp
    · simp only [Nat.min_self]
      exact fun h => ha (List.length_eq_zero.mp h)
  · unfold distance
    simp

/-- C6 witness: the self-distance part applied to the vector [1]. -/
theorem distance_symm_and_self_witness :
    ([(1 : ℝ)] ≠ []) ∧ distance [(1 : ℝ)] [(1 : ℝ)] = 0 :=
  ⟨by simp, distance_symm_and_self.2.1 [(1 : ℝ)] (by simp)⟩

/-- C6 counterexample: at the empty vector the self-distance is positive
infinity, not 0 as the claim states. -/
theorem distance_nil_self_ne_zero :
    distance ([] : List ℝ) [] = ⊤ ∧ (⊤ : EReal) ≠ 0 := by
  constructor
  · unfold distance
    simp
  · simp

/-- C7 (amended): for every prior alarm state that is absent or nonzero,
scheduleAlarmForExpiration stores min(existing wake-up, deadline), treating
an absent alarm as positive infinity.  A stored wake-up of exactly 0 is
falsy in the source's check and is treated as absent, so there the deadline
is stored unconditionally, even when that raises the wake-up. -/
theorem scheduleAlarm_min_of_nonzero (currentAlarm : Option Int) (newExpiration : Int)
    (h : currentAlarm ≠ some 0) :
    scheduleAlarmForExpiration currentAlarm newExpiration =
      some (min (currentAlarm.getD newExpiration) newExpiration) := by
  match currentAlarm with
  | none => simp [scheduleAlarmForExpiration, truthyTime]
  | some c =>
      have hc : c ≠ 0 := fun h0 => h (by rw [h0])
      by_cases hlt : newExpiration < c
      · simp [scheduleAlarmForExpiration, truthyTime, hc, hlt, min_eq_right (le_of_lt hlt)]
      · simp [scheduleAlarmForExpiration, truthyTime, hc, hlt, min_eq_left (le_of_not_lt hlt)]

/-- C7 witness: a nonzero stored alarm of 7 and a deadline of 3 yield the
minimum 3. -/
theorem scheduleAlarm_min_of_nonzero_witness :
    (some (7 : Int) ≠ some (0 : Int)) ∧
    scheduleAlarmForExpiration (some 7) 3 = some (min ((some (7 : Int)).getD 3) 3) :=
  ⟨by decide, scheduleAlarm_min_of_nonzero (some 7) 3 (by decide)⟩

/-- C7 counterexample: with a stored wake-up of exactly 0 and deadline 5 the
code stores 5, which is not min(0, 5) and raises the alarm deadline. -/
theorem scheduleAlarm_zero_alarm_raised :
    scheduleAlarmForExpiration (some 0) 5 = some 5 ∧
    (5 : Int) ≠ min 0 5 ∧ (0 : Int) < 5 := by
  refine ⟨rfl, by decide, by decide⟩

/-- C4 (amended): broadcast delivers the message to every entry of the
snapshot taken at function entry and awaits all deliveries, but it returns
the length of the clients array after those deliveries, so recipients
evicted as dead during the call are not counted; the returned value equals
the entry size exactly when no delivery was classified dead. -/
theorem broadcast_returns_post_eviction_size (deliver : Nat → DeliveryOutcome)
    (message : JsonValue) (clients : List ClientRecord) :
    (broadcast deliver message clients).delivered = clients.map (fun c => c.handle) ∧
    (broadcast deliver message clients).returned =
      (broadcast deliver message clients).clients.length ∧
    ((∀ c ∈ clients, deliver c.handle ≠ .deadError) →
      (broadcast deliver message clients).returned = clients.length) := by
  match clients with
  | [] => exact ⟨rfl, rfl, fun _ => rfl⟩
  | c :: rest =>
      refine ⟨rfl, rfl, fun h => ?_⟩
      show ((c :: rest).foldl (fun acc x =>
          if deliver x.handle = .deadError then removeByHandle acc x.handle else acc)
        (c :: rest)).length = (c :: rest).length
      rw [broadcast_fold_no_dead deliver (c :: rest) (c :: rest) h]

/-- C4 witness: with a one-client registry and a successful delivery the
returned count equals the entry size. -/
theorem broadcast_returns_post_eviction_size_witness :
    (broadcast (fun _ => .ok) .null oneClient).delivered =
      oneClient.map (fun c => c.handle) ∧
    (broadcast (fun _ => .ok) .null oneClient).returned =
      (broadcast (fun _ => .ok) .null oneClient).clients.length ∧
    ((∀ c ∈ oneClient, (fun _ => DeliveryOutcome.ok) c.handle ≠ .deadError) →
      (broadcast (fun _ => .ok) .null oneClient).returned = oneClient.length) :=
  broadcast_returns_post_eviction_size (fun _ => .ok) .null oneClient

/-- C4 counterexample: a one-client registry whose delivery fails dead makes
broadcast return 0, not the entry size 1. -/
theorem broadcast_return_after_eviction :
    (broadcast (fun _ => .deadError) .null oneClient).returned = 0 ∧
    oneClient.length = 1 ∧ (0 : Nat) ≠ 1 := by
  exact ⟨rfl, rfl, by decide⟩

/-- C1 (amended): in every map-reduce summary produced by resolution, every
task counts as completed — resolution force-completes each unfinished task
before counting — so completedTasks always equals totalTasks and
failedTasks never exceeds completedTasks; the claimed identity
completedTasks = totalTasks − pendingTasks therefore holds exactly when
pendingTasks (counted on the pre-force tasks) is 0. -/
theorem resolveMapReduce_summary_counts (now : Int) (msg : Option String)
    (p : PendingMapReduce) (hnow : now ≠ 0) :
    (resolveMapReduce now msg p).completedTasks = (resolveMapReduce now msg p).totalTasks ∧
    (resolveMapReduce now msg p).failedTasks ≤ (resolveMapReduce now msg p).completedTasks ∧
    ((resolveMapReduce now msg p).completedTasks =
        (resolveMapReduce now msg p).totalTasks - (resolveMapReduce now msg p).pendingTasks ↔
      (resolveMapReduce now msg p).pendingTasks = 0) := by
  have hall := forceComplete_all_completed now hnow p.tasks
  have hcomp : ((forceCompleteTasks now p.tasks).filter
      (fun t => truthyTime t.completedAt)).length = p.tasks.length := by
    rw [filter_length_of_all _ _ hall]
    simp [forceCompleteTasks]
  have hfail : ((forceCompleteTasks now p.tasks).filter (fun t => errTruthy t.error)).length ≤
      p.tasks.length := by
    have h1 := List.length_filter_le (fun t => errTruthy t.error) (forceCompleteTasks now p.tasks)
    have h2 : (forceCompleteTasks now p.tasks).length = p.tasks.length := by
      simp [forceCompleteTasks]
    omega
  have hpend : (p.tasks.filter (fun t => !(truthyTime t.completedAt))).length ≤
      p.tasks.length := List.length_filter_le _ _
  simp only [resolveMapReduce]
  refine ⟨hcomp, ?_, ?_⟩
  · rw [hcomp]
    exact hfail
  · rw [hcomp]
    omega

/-- C1 witness: resolving a run with one still-open task at a nonzero time. -/
theorem resolveMapReduce_summary_counts_witness :
    (1000 : Int) ≠ 0 ∧
    ((resolveMapReduce 1000 none oneOpenTask).completedTasks =
        (resolveMapReduce 1000 none oneOpenTask).totalTasks ∧
      (resolveMapReduce 1000 none oneOpenTask).failedTasks ≤
        (resolveMapReduce 1000 none oneOpenTask).completedTasks ∧
      ((resolveMapReduce 1000 none oneOpenTask).completedTasks =
          (resolveMapReduce 1000 none oneOpenTask).totalTasks -
            (resolveMapReduce 1000 none oneOpenTask).pendingTasks ↔
        (resolveMapReduce 1000 none oneOpenTask).pendingTasks = 0)) :=
  ⟨by decide, resolveMapReduce_summary_counts 1000 none oneOpenTask (by decide)⟩

/-- C1 counterexample: a timed-out run with one unfinished task reports
totalTasks = 1, pendingTasks = 1 and completedTasks = 1, so completedTasks
differs from totalTasks − pendingTasks = 0. -/
theorem resolveMapReduce_timeout_breaks_count_identity :
    (resolveMapReduce 1000 (some "MapReduce timed out before all tasks completed")
        oneTaskRun.pending).totalTasks = 1 ∧
    (resolveMapReduce 1000 (some "MapReduce timed out before all tasks completed")
        oneTaskRun.pending).pendingTasks = 1 ∧
    (resolveMapReduce 1000 (some "MapReduce timed out before all tasks completed")
        oneTaskRun.pending).completedTasks = 1 ∧
    (resolveMapReduce 1000 (some "MapReduce timed out before all tasks completed")
        oneTaskRun.pending).completedTasks ≠
      (resolveMapReduce 1000 (some "MapReduce timed out before all tasks completed")
          oneTaskRun.pending).totalTasks -
        (resolveMapReduce 1000 (some "MapReduce timed out before all tasks completed")
            oneTaskRun.pending).pendingTasks := by
  refine ⟨rfl, rfl, rfl, ?_⟩
  intro h
  rw [show (resolveMapReduce 1000 (some "MapReduce timed out before all tasks completed")
      oneTaskRun.pending).completedTasks = 1 from rfl] at h
  rw [show (resolveMapReduce 1000 (some "MapReduce timed out before all tasks completed")
      oneTaskRun.pending).totalTasks = 1 from rfl] at h
  rw [show (resolveMapReduce 1000 (some "MapReduce timed out before all tasks completed")
      oneTaskRun.pending).pendingTasks = 1 from rfl] at h
  exact absurd h (by decide)

/-- C2 (amended): in every benchmark summary responded + pending equals the
participants field, but participants is recomputed at resolution time as
results + expected and only equals the size of the client snapshot taken at
start when the snapshot ids are duplicate-free and every report since start
came from a client still in the expected set; duplicate or unknown
reporters both append a result and leave expected untouched, inflating
participants beyond the snapshot size. -/
theorem benchmark_summary_partition :
    (∀ (now : Int) (msg : Option String) (p : PendingBenchmark),
        (resolveBenchmark now msg p).responded + (resolveBenchmark now msg p).pending.length =
          (resolveBenchmark now msg p).participants) ∧
    (∀ (rid : String) (req : Option String) (now0 : Int) (iters tmo : Nat)
        (snapshot : List ClientRecord) (q : PendingBenchmark) (now : Int) (msg : Option String),
        (snapshot.map (fun c => c.info.id)).Nodup →
        InExpectedReports (initBenchmark rid req now0 iters tmo snapshot) q →
        (resolveBenchmark now msg q).participants = snapshot.length) := by
  constructor
  · intro now msg p
    simp [resolveBenchmark]
  · intro rid req now0 iters tmo snapshot q now msg hnd htrace
    have hInv : BenchInv (initBenchmark rid req now0 iters tmo snapshot) := by
      refine ⟨?_, ?_⟩
      · show (setOfIds snapshot).Nodup
        rw [setOfIds_eq_of_nodup snapshot hnd]
        exact hnd
      · intro r hr
        simp [initBenchmark] at hr
    have hsum := inExpectedReports_sum htrace hInv
    show q.results.length + q.expected.length = snapshot.length
    rw [hsum]
    show (initBenchmark rid req now0 iters tmo snapshot).results.length +
      (setOfIds snapshot).length = snapshot.length
    rw [setOfIds_eq_of_nodup snapshot hnd]
    simp [initBenchmark]

/-- C2 witness: a one-client benchmark after a single in-expected report
still reports participants equal to the snapshot size. -/
theorem benchmark_summary_partition_witness :
    (oneClient.map (fun c => c.info.id)).Nodup ∧
    (resolveBenchmark 2 none (applyBenchmarkReport 1 (some "A") 7 none
        (initBenchmark "r" none 0 50000 5000 oneClient))).participants = oneClient.length :=
  ⟨by decide,
   benchmark_summary_partition.2 "r" none 0 50000 5000 oneClient _ 2 none (by decide)
     (.step 1 (some "A") 7 none (by decide) (.refl _))⟩

/-- C2 counterexample: after a report from an unknown client "B" and one
from the real client "A", a benchmark started with a one-client snapshot
reports participants = 2, not the snapshot size 1. -/
theorem benchmark_participants_ne_snapshot :
    (resolveBenchmark 3 none benchP2).participants = 2 ∧
    oneClient.length = 1 ∧
    (resolveBenchmark 3 none benchP2).participants ≠ oneClient.length := by
  refine ⟨rfl, rfl, ?_⟩
  intro h
  rw [show (resolveBenchmark 3 none benchP2).participants = 2 from rfl,
      show oneClient.length = 1 from rfl] at h
  exact absurd h (by decide)

theorem applyBenchmarkReport_recorded (now : Int) (cid : Option String) (d : ℚ)
    (det : Option JsonValue) (p : PendingBenchmark) :
    (applyBenchmarkReport now cid d det p).results.any
      (fun r => r.clientId = cid.getD "unknown") = true := by
  by_cases h : p.results.any (fun r => r.clientId = cid.getD "unknown") = true
  · simp only [applyBenchmarkReport, h, if_true]
  · have hf : p.results.any (fun r => r.clientId = cid.getD "unknown") = false := by
      simpa using h
    simp only [applyBenchmarkReport, hf, Bool.false_eq_true, if_false, List.any_append]
    simp

theorem applyBenchmarkReport_already (now : Int) (cid : Option String) (d : ℚ)
    (det : Option JsonValue) (p : PendingBenchmark)
    (h : p.results.any (fun r => r.clientId = cid.getD "unknown") = true) :
    (applyBenchmarkReport now cid d det p).results = p.results := by
  simp only [applyBenchmarkReport, h, if_true]

theorem parseFloat_seven : parseFloatJs "7" = some 7 := by
  show some ((digitsToNat ['7'] : ℚ) + (digitsToNat ([] : List Char) : ℚ) /
      ((10 : ℚ) ^ (0 : Nat))) = some (7 : ℚ)
  norm_num [digitsToNat, show '7'.toNat - '0'.toNat = 7 from rfl]

/-- C5 (confirmed): a second benchmark report from the same client id is
recorded once only — after one report that client is marked recorded, a
repeat report leaves the results list unchanged, so the resolved summary's
results are identical — and the handler still replies with the same
accepted benchmark-report acknowledgement, making duplicate reports
idempotent with respect to the final summary. -/
theorem benchmarkReport_idempotent :
    (∀ (now1 now2 now3 : Int) (cid : Option String) (d1 d2 : ℚ)
        (det1 det2 : Option JsonValue) (p : PendingBenchmark),
       (applyBenchmarkReport now1 cid d1 det1 p).results.any
          (fun r => r.clientId = cid.getD "unknown") = true ∧
       (applyBenchmarkReport now2 cid d2 det2
          (applyBenchmarkReport now1 cid d1 det1 p)).results =
         (applyBenchmarkReport now1 cid d1 det1 p).results ∧
       (resolveBenchmark now3 none (applyBenchmarkReport now2 cid d2 det2
            (applyBenchmarkReport now1 cid d1 det1 p))).results =
         (resolveBenchmark now3 none (applyBenchmarkReport now1 cid d1 det1 p)).results) ∧
    (∀ (now : Int) (deliver : Nat → DeliveryOutcome) (fresh command : String)
        (cid : Option String) (st : HubState) (rid ds : String) (d : ℚ) (q : PendingBenchmark),
       tokenizeCommand command = ["benchmark", "report", rid, ds] →
       parseFloatJs ds = some d → ¬ d < 0 →
       lookupPending st.pendingBenchmarks rid = some q →
       (runCommand now deliver fresh command cid st).reply =
         some (.json (benchmarkReportResponse rid))) := by
  constructor
  · intro now1 now2 now3 cid d1 d2 det1 det2 p
    have h1 := applyBenchmarkReport_recorded now1 cid d1 det1 p
    have h2 := applyBenchmarkReport_already now2 cid d2 det2 _ h1
    exact ⟨h1, h2, by simp only [resolveBenchmark, h2]⟩
  · intro now deliver fresh command cid st rid ds d q htok hd hd0 hlook
    rw [runCommand_benchmark_dispatch now deliver fresh command cid st ["report", rid, ds] htok]
    norm_num [runBenchmark, hd, hd0, hlook,
      show lowerString "report" = "report" from rfl,
      show String.intercalate " " ([] : List String) = "" from rfl]
    by_cases hemp : (applyBenchmarkReport now cid d none q).expected = [] <;> simp [hemp]

/-- C5 witness: reporting duration 7 for the pending benchmark "r" yields
the accepted benchmark-report reply. -/
theorem benchmarkReport_idempotent_witness :
    tokenizeCommand "benchmark report r 7" = ["benchmark", "report", "r", "7"] ∧
    parseFloatJs "7" = some 7 ∧ ¬ (7 : ℚ) < 0 ∧
    lookupPending benchReportState.pendingBenchmarks "r" = some benchQ ∧
    (runCommand 3 (fun _ => .ok) "f" "benchmark report r 7" (some "A")
        benchReportState).reply = some (.json (benchmarkReportResponse "r")) :=
  ⟨rfl, parseFloat_seven, by norm_num, rfl,
    benchmarkReport_idempotent.2 3 (fun _ => .ok) "f" "benchmark report r 7" (some "A")
      benchReportState "r" "7" 7 benchQ rfl parseFloat_seven (by norm_num) rfl⟩

/-- C9 (confirmed): cancelling a map-reduce run force-completes every task:
each previously unfinished task's result entry carries the error string
"No response received", which is truthy, so every such task counts as
failed in the cancellation summary and every task counts as completed. -/
theorem cancel_force_completes_with_error (now : Int) (clientId : Option String)
    (p : PendingMapReduce) (hnow : now ≠ 0)
    (hwf : ∀ t ∈ p.tasks, t.completedAt = none → t.error = none) :
    (handleMapReduceCancelCore now clientId p).1.completedTasks =
      (handleMapReduceCancelCore now clientId p).1.totalTasks ∧
    (∀ pr ∈ p.tasks.zip (handleMapReduceCancelCore now clientId p).1.results,
        pr.1.completedAt = none →
        pr.2.error = some "No response received" ∧ errTruthy pr.2.error = true) ∧
    (p.tasks.filter (fun t => t.completedAt.isNone)).length ≤
      (handleMapReduceCancelCore now clientId p).1.failedTasks := by
  have hall := forceComplete_all_completed now hnow p.tasks
  refine ⟨?_, ?_, ?_⟩
  · show ((forceCompleteTasks now p.tasks).filter (fun t => truthyTime t.completedAt)).length =
      p.tasks.length
    rw [filter_length_of_all _ _ hall]
    simp [forceCompleteTasks]
  · intro pr hpr hun
    have hres : (handleMapReduceCancelCore now clientId p).1.results =
        p.tasks.map (fun t => taskResultEntry
          (if truthyTime t.completedAt then t
           else { t with completedAt := some now,
                         error := some (t.error.getD "No response received") })) := by
      show (forceCompleteTasks now p.tasks).map taskResultEntry = _
      rw [forceCompleteTasks, List.map_map]
      rfl
    rw [hres, zip_map_self] at hpr
    simp only [List.mem_map] at hpr
    obtain ⟨t, hmem, heq⟩ := hpr
    have h1 : pr.1 = t := by rw [← heq]
    have h2 : pr.2 = taskResultEntry
        (if truthyTime t.completedAt then t
         else { t with completedAt := some now,
                       error := some (t.error.getD "No response received") }) := by rw [← heq]
    rw [h1] at hun
    have hf : truthyTime t.completedAt = false := by simp [truthyTime, hun]
    have herr : t.error = none := hwf t hmem hun
    rw [h2, hf]
    refine ⟨?_, ?_⟩
    · simp [taskResultEntry, herr]
    · simp [taskResultEntry, herr, errTruthy, jsFalsyStr]
  · show _ ≤ ((forceCompleteTasks now p.tasks).filter (fun t => errTruthy t.error)).length
    rw [← List.countP_eq_length_filter, ← List.countP_eq_length_filter]
    rw [forceCompleteTasks, List.countP_map]
    apply List.countP_mono_left
    intro t hmem hun
    simp only [Option.isNone_iff_eq_none, decide_eq_true_eq] at hun
    have herr : t.error = none := hwf t hmem hun
    have hf : truthyTime t.completedAt = false := by simp [truthyTime, hun]
    simp [Function.comp, hf, herr, errTruthy, jsFalsyStr]

/-- C9 witness: cancelling a run with one open error-free task at time 50. -/
theorem cancel_force_completes_with_error_witness :
    ((50 : Int) ≠ 0 ∧ ∀ t ∈ oneOpenTask.tasks, t.completedAt = none → t.error = none) ∧
    ((handleMapReduceCancelCore 50 (some "A") oneOpenTask).1.completedTasks =
        (handleMapReduceCancelCore 50 (some "A") oneOpenTask).1.totalTasks ∧
      (∀ pr ∈ oneOpenTask.tasks.zip
          (handleMapReduceCancelCore 50 (some "A") oneOpenTask).1.results,
          pr.1.completedAt = none →
          pr.2.error = some "No response received" ∧ errTruthy pr.2.error = true) ∧
      (oneOpenTask.tasks.filter (fun t => t.completedAt.isNone)).length ≤
        (handleMapReduceCancelCore 50 (some "A") oneOpenTask).1.failedTasks) :=
  ⟨⟨by decide, by decide⟩,
    cancel_force_completes_with_error 50 (some "A") oneOpenTask (by decide) (by decide)⟩

theorem successInputs_forceComplete_mem (now2 : Int) {t : MapReduceTaskState}
    {tasks : List MapReduceTaskState} (hmem : t ∈ tasks)
    (hc : truthyTime t.completedAt = true) (he : errTruthy t.error = false) :
    t.result ∈ successInputs (forceCompleteTasks now2 tasks) := by
  have hmem2 : t ∈ forceCompleteTasks now2 tasks := by
    rw [forceCompleteTasks]
    have hmap := List.mem_map_of_mem (fun x =>
      if truthyTime x.completedAt then x
      else { x with completedAt := some now2,
                    error := some (x.error.getD "No response received") }) hmem
    simpa [hc] using hmap
  exact mem_successInputs hmem2 hc he

/-- C10 (confirmed): a map-reduce report carrying neither a result payload
nor an error marks the matching open task completed with result JSON null —
the handler substitutes the string "null", which parses to JSON null — the
reply still acknowledges the report as accepted, and that null result is
fed to the reducer as a success input at resolution. -/
theorem report_defaults_to_null_result (now now2 : Int) (clientId : Option String)
    (requestId taskId : String) (opts : List String) (p : PendingMapReduce)
    (t : MapReduceTaskState)
    (hnow : now ≠ 0)
    (hfind : p.tasks.find? (fun x => x.taskId = taskId) = some t)
    (hun : t.completedAt = none)
    (herr : t.error = none)
    (henc : jsFalsyStr (parseReportOptions opts).1 = true)
    (hem : jsFalsyStr (parseReportOptions opts).2.1 = true) :
    ∃ t2, (handleMapReduceReport now clientId (requestId :: taskId :: opts) p).1.tasks.find?
        (fun x => x.taskId = taskId) = some t2 ∧
      t2.completedAt = some now ∧ t2.result = some JsonValue.null ∧ t2.error = none ∧
      (handleMapReduceReport now clientId (requestId :: taskId :: opts) p).2 =
        .obj [("command", .str "mapreduce-report"), ("requestId", .str requestId),
              ("taskId", .str taskId), ("accepted", .bool true)] ∧
      some JsonValue.null ∈ successInputs (forceCompleteTasks now2
        (handleMapReduceReport now clientId (requestId :: taskId :: opts) p).1.tasks) := by
  have hlen : ¬ (requestId :: taskId :: opts).length < 2 := by simp
  have hft : truthyTime t.completedAt = false := by simp [truthyTime, hun]
  have het : errTruthy (parseReportOptions opts).2.1 = false := by
    simp [errTruthy, hem]
  have hid : t.taskId = taskId := by
    have := List.find?_some hfind
    simpa using this
  simp only [handleMapReduceReport, hlen, if_false, List.headD, List.drop, hfind, hft,
    Bool.false_eq_true, henc, hem, het, if_true, and_self, parseMaybeJson_null]
  rcases hmeta : (parseReportOptions opts).2.2 with _ | m
  · simp only [hmeta]
    refine ⟨_, find?_updateFirstTask p.tasks taskId t _ hfind hid, rfl, rfl, herr, trivial, ?_⟩
    have hmem2 := mem_updateFirstTask p.tasks taskId t
      ({ t with completedAt := some now, result := some JsonValue.null,
                error := t.error, resultMetadata := t.resultMetadata }) hfind
    have hres := successInputs_forceComplete_mem now2 hmem2
      (by simp [truthyTime, hnow]) (by simp [errTruthy, jsFalsyStr, herr])
    simpa using hres
  · simp only [hmeta]
    refine ⟨_, find?_updateFirstTask p.tasks taskId t _ hfind hid, rfl, rfl, herr, trivial, ?_⟩
    have hmem2 := mem_updateFirstTask p.tasks taskId t
      ({ t with completedAt := some now, result := some JsonValue.null,
                error := t.error, resultMetadata := some m }) hfind
    have hres := successInputs_forceComplete_mem now2 hmem2
      (by simp [truthyTime, hnow]) (by simp [errTruthy, jsFalsyStr, herr])
    simpa using hres

/-- C10 witness: reporting task "t1" with no result and no error at time 7. -/
theorem report_defaults_to_null_result_witness :
    ∃ t2, (handleMapReduceReport 7 (some "A") ["req-1", "t1"] oneOpenTask).1.tasks.find?
        (fun x => x.taskId = "t1") = some t2 ∧
      t2.completedAt = some 7 ∧ t2.result = some JsonValue.null ∧ t2.error = none ∧
      (handleMapReduceReport 7 (some "A") ["req-1", "t1"] oneOpenTask).2 =
        .obj [("command", .str "mapreduce-report"), ("requestId", .str "req-1"),
              ("taskId", .str "t1"), ("accepted", .bool true)] ∧
      some JsonValue.null ∈ successInputs (forceCompleteTasks 9
        (handleMapReduceReport 7 (some "A") ["req-1", "t1"] oneOpenTask).1.tasks) :=
  report_defaults_to_null_result 7 9 (some "A") "req-1" "t1" [] oneOpenTask
    { taskId := "t1", payload := .null, metadata := none, assignedTo := some "A",
      assignedAt := some 5, attempts := 1, completedAt := none, result := none,
      error := none, resultMetadata := none }
    (by decide) rfl rfl rfl rfl rfl

/-- C3 (amended): a get on a key whose stored entry has a nonzero
expiration strictly earlier than the current time deletes the entry and
replies with a null value marked expired; the source's check is
Date.now() > expiresAt, a strict comparison, so at the boundary instant
now = expiresAt the value is still returned and nothing is deleted. -/
theorem get_expired_strict (now : Int) (deliver : Nat → DeliveryOutcome)
    (fresh command : String) (clientId : Option String) (st : HubState) (key : String)
    (entry : KVEntry) (texp : Int)
    (htok : tokenizeCommand command = ["get", key])
    (hlook : kvGet st.storage key = some entry)
    (hexp : entry.expiresAt = some texp) (ht : texp ≠ 0) (hlt : texp < now) :
    (runCommand now deliver fresh command clientId st).reply =
      some (.json (.obj [("command", .str "get"), ("key", .str key), ("value", .null),
        ("expired", .bool true)])) ∧
    (runCommand now deliver fresh command clientId st).state.storage =
      kvDelete st.storage key := by
  rw [runCommand_get_dispatch now deliver fresh command clientId st [key] htok]
  norm_num [runGet, hlook, hexp, truthyTime, ht, hlt, jsonReply]

/-- C3 witness: getting key "foo" of an entry expiring at 100 at time 101. -/
theorem get_expired_strict_witness :
    (tokenizeCommand "get foo" = ["get", "foo"] ∧
      kvGet boundaryState.storage "foo" = some { value := "bar", expiresAt := some 100 } ∧
      (100 : Int) ≠ 0 ∧ (100 : Int) < 101) ∧
    ((runCommand 101 (fun _ => .ok) "f" "get foo" none boundaryState).reply =
        some (.json (.obj [("command", .str "get"), ("key", .str "foo"), ("value", .null),
          ("expired", .bool true)])) ∧
      (runCommand 101 (fun _ => .ok) "f" "get foo" none boundaryState).state.storage =
        kvDelete boundaryState.storage "foo") :=
  ⟨⟨rfl, rfl, by decide, by decide⟩,
    get_expired_strict 101 (fun _ => .ok) "f" "get foo" none boundaryState "foo"
      { value := "bar", expiresAt := some 100 } 100 rfl rfl rfl (by decide) (by decide)⟩

/-- C3 counterexample: at the boundary instant now = expiresAt = 100 the
value "bar" is still returned and the entry is not deleted, contradicting
a read of the claim under which entries expiring at or before now are
treated as expired. -/
theorem get_boundary_returns_value :
    (runCommand 100 (fun _ => .ok) "f" "get foo" none boundaryState).reply =
      some (.json (.obj [("command", .str "get"), ("key", .str "foo"),
        ("value", .str "bar")])) ∧
    (runCommand 100 (fun _ => .ok) "f" "get foo" none boundaryState).state.storage =
      boundaryState.storage :=
  ⟨rfl, rfl⟩

/-- C8 (amended): an audio command whose subcommand is none of list, get or
upload does not produce an audio usage error; it falls through to the
map-reduce coordinator, which handles the remaining words as a map-reduce
subcommand and replies accordingly (for example a no-clients error when the
registry is empty). -/
theorem audio_unknown_falls_through_to_mapreduce (now : Int)
    (deliver : Nat → DeliveryOutcome) (fresh command : String) (clientId : Option String)
    (st : HubState) (sub : String) (rest : List String)
    (htok : tokenizeCommand command = "audio" :: sub :: rest)
    (h1 : sub ≠ "list") (h2 : sub ≠ "get") (h3 : sub ≠ "upload") :
    runCommand now deliver fresh command clientId st =
      handleMapReduceCommand now deliver fresh (sub :: rest) clientId st := by
  rw [runCommand_audio_dispatch now deliver fresh command clientId st (sub :: rest) htok]
  norm_num [runAudio, h1, h2, h3]

/-- C8 witness: the command "audio foo" on the empty hub state is handled
by the map-reduce coordinator with words ["foo"]. -/
theorem audio_unknown_falls_through_to_mapreduce_witness :
    (tokenizeCommand "audio foo" = ["audio", "foo"] ∧ "foo" ≠ "list" ∧
      "foo" ≠ "get" ∧ "foo" ≠ "upload") ∧
    runCommand 5 (fun _ => .ok) "f" "audio foo" none emptyState =
      handleMapReduceCommand 5 (fun _ => .ok) "f" ["foo"] none emptyState :=
  ⟨⟨rfl, by decide, by decide, by decide⟩,
    audio_unknown_falls_through_to_mapreduce 5 (fun _ => .ok) "f" "audio foo" none
      emptyState "foo" [] rfl (by decide) (by decide) (by decide)⟩

/-- C8 counterexample: "audio foo" on the empty state replies with the
map-reduce no-clients error, not with the audio usage error the claim
describes, and the reply is not absent. -/
theorem audio_unknown_returns_mapreduce_error :
    (runCommand 5 (fun _ => .ok) "f" "audio foo" none emptyState).reply =
      some (.json (errObj "mapreduce" "No connected clients available for map/reduce")) ∧
    (runCommand 5 (fun _ => .ok) "f" "audio foo" none emptyState).reply ≠
      some (.json (errObjEx "audio" "Usage: audio <list|get> [filename]" "audio list")) := by
  refine ⟨rfl, ?_⟩
  intro h
  rw [show (runCommand 5 (fun _ => .ok) "f" "audio foo" none emptyState).reply =
      some (.json (errObj "mapreduce" "No connected clients available for map/reduce"))
      from rfl] at h
  simp only [Option.some.injEq, CommandReply.json.injEq] at h
  exact absurd h (by simp [errObj, errObjEx])
